import Mathlib

/-!
Verification of the htcap in-page probe (`src/core/crawl/probe/src/probe.js`).

The development shallowly embeds the probe's data model and operations:

* strings are modelled as `List Char` (`Str`), so that the character-level
  operations of the JavaScript code (splitting, prefix tests, encoding) can be
  reasoned about with list lemmas;
* the host `URL` class is modelled by `JSURL`/`parseURL`: splitting at the
  first `#` (fragment), then at the first `?` (query), then extracting an
  RFC-3986 scheme prefix, with relative references resolved against a base;
  dot-segment normalisation and percent-encoding done by a real URL parser is
  not modelled, which is faithful for the inputs considered here;
* fallible constructors (`new Request(...)`, which can throw on a disallowed
  protocol) return `Except`;
* the event-loop manager and probe bookkeeping are modelled as a state machine
  (`ProbeState`, `step`) over externally delivered operations (ticks, DOM
  mutation batches, XHR lifecycle notifications).
-/

set_option linter.unusedVariables false

/-- JavaScript strings are modelled as lists of characters. -/
abbrev Str := List Char

/-- Literal helper: the character list of a Lean string literal. -/
def chars (s : String) : Str := s.data

/-- ASCII lower-casing of one character, as done by `String.prototype.toLowerCase`
on the ASCII range (the only range the probe's comparisons exercise). -/
def asciiLowerChar (c : Char) : Char :=
  match c with
  | 'A' => 'a'
  | 'B' => 'b'
  | 'C' => 'c'
  | 'D' => 'd'
  | 'E' => 'e'
  | 'F' => 'f'
  | 'G' => 'g'
  | 'H' => 'h'
  | 'I' => 'i'
  | 'J' => 'j'
  | 'K' => 'k'
  | 'L' => 'l'
  | 'M' => 'm'
  | 'N' => 'n'
  | 'O' => 'o'
  | 'P' => 'p'
  | 'Q' => 'q'
  | 'R' => 'r'
  | 'S' => 's'
  | 'T' => 't'
  | 'U' => 'u'
  | 'V' => 'v'
  | 'W' => 'w'
  | 'X' => 'x'
  | 'Y' => 'y'
  | 'Z' => 'z'
  | c => c

/-- ASCII upper-casing of one character (`String.prototype.toUpperCase`). -/
def asciiUpperChar (c : Char) : Char :=
  match c with
  | 'a' => 'A'
  | 'b' => 'B'
  | 'c' => 'C'
  | 'd' => 'D'
  | 'e' => 'E'
  | 'f' => 'F'
  | 'g' => 'G'
  | 'h' => 'H'
  | 'i' => 'I'
  | 'j' => 'J'
  | 'k' => 'K'
  | 'l' => 'L'
  | 'm' => 'M'
  | 'n' => 'N'
  | 'o' => 'O'
  | 'p' => 'P'
  | 'q' => 'Q'
  | 'r' => 'R'
  | 's' => 'S'
  | 't' => 'T'
  | 'u' => 'U'
  | 'v' => 'V'
  | 'w' => 'W'
  | 'x' => 'X'
  | 'y' => 'Y'
  | 'z' => 'Z'
  | c => c

/-- Characters allowed in a URL scheme (RFC 3986: ALPHA / DIGIT / `+` / `-` / `.`). -/
def isSchemeChar (c : Char) : Bool :=
  c.isAlpha || c.isDigit || c == '+' || c == '-' || c == '.'

/-- Split a string at its first `#`: the part before (no `#` in it) and the
part from the `#` on (the fragment, including the `#`, possibly empty). -/
def splitHash (l : Str) : Str × Str :=
  (l.takeWhile (fun c => c != '#'), l.dropWhile (fun c => c != '#'))

/-- Split a string at its first `?`: the part before and the part from the
`?` on (the query, including the `?`, possibly empty). -/
def splitQuery (l : Str) : Str × Str :=
  (l.takeWhile (fun c => c != '?'), l.dropWhile (fun c => c != '?'))

/-- Extract a scheme prefix `scheme:` from a string: the maximal run of scheme
characters, which must be non-empty, start with a letter, and be followed by a
colon.  Returns the scheme (without the colon) and the remainder. -/
def schemeSplit (l : Str) : Option (Str × Str) :=
  let pre := l.takeWhile isSchemeChar
  let rest := l.dropWhile isSchemeChar
  match pre, rest with
  | p :: ps, ':' :: r => if p.isAlpha then some (p :: ps, r) else none
  | _, _ => none

/-- The authority part (`//host`) of a URL body, when it has one. -/
def authorityOf (r : Str) : Str :=
  if r.take 2 = ['/', '/'] then ['/', '/'] ++ (r.drop 2).takeWhile (fun c => c != '/') else []

/-- The path part of a URL body: what follows the authority. -/
def pathOf (r : Str) : Str :=
  if r.take 2 = ['/', '/'] then (r.drop 2).dropWhile (fun c => c != '/') else r

/-- The directory of a path: everything up to and including the last `/`. -/
def dirOf (p : Str) : Str :=
  (p.reverse.dropWhile (fun c => c != '/')).reverse

/-- Resolve a relative reference `core` against the body `baseRest` of the base
URL (simplified RFC 3986 merge, without dot-segment normalisation). -/
def resolveRest (baseRest core : Str) : Str :=
  if core = [] then baseRest
  else if core.take 2 = ['/', '/'] then core
  else if core.take 1 = ['/'] then authorityOf baseRest ++ core
  else authorityOf baseRest ++ dirOf (pathOf baseRest) ++ core

/-- Model of the host `URL` object: scheme (without colon), body (authority and
path), query (with leading `?` or empty) and fragment (with leading `#` or empty). -/
structure JSURL where
  scheme : Str
  rest : Str
  search : Str
  hash : Str
deriving DecidableEq

/-- `URL.href`: the serialised URL. -/
def JSURL.href (u : JSURL) : Str :=
  u.scheme ++ ':' :: u.rest ++ u.search ++ u.hash

/-- Model of the value `new URL(url, base)` produces when it does not throw
(`urlParseThrows` below models the throwing inputs): split off fragment and
query, then either read an absolute scheme (lower-cased, as the URL parser
does) or resolve the reference against the base. -/
def parseURL (url : Str) (base : JSURL) : JSURL :=
  let ph := splitHash url
  let pq := splitQuery ph.1
  match schemeSplit pq.1 with
  | some sr => ⟨sr.1.map asciiLowerChar, sr.2, pq.2, ph.2⟩
  | none => ⟨base.scheme, resolveRest base.rest pq.1, pq.2, ph.2⟩

/-- The protocol patterns of the regular expression
`/^(https?:|s?ftp:|javascript:)/` in `_getAbsoluteUrl` (probe.js:832), with the
alternations `https?:` and `s?ftp:` expanded. -/
def protoPatterns : List Str :=
  [chars "http:", chars "https:", chars "ftp:", chars "sftp:", chars "javascript:"]

/-- `u.protocol.match(/^(https?:|s?ftp:|javascript:)/)` as a boolean test: the
regex is anchored at the start only, so it succeeds iff one of the alternatives
is a prefix of the protocol string. -/
def jsProtoRegexTest (p : Str) : Bool :=
  protoPatterns.any (fun pat => pat.isPrefixOf p)

/-- A numeric port above 65535 at the end of an authority, one of the inputs
on which the host's URL parser fails. -/
def portOverflow (auth : Str) : Bool :=
  let digits := (auth.reverse.takeWhile Char.isDigit).reverse
  match auth.reverse.dropWhile Char.isDigit with
  | ':' :: _ =>
      if digits = [] then false
      else decide (65535 < digits.foldl (fun n c => n * 10 + (c.toNat - 48)) 0)
  | _ => false

/-- Failure of the host parser inside `new URL` on an authority: an unmatched
square bracket (an invalid host, e.g. `http://[`) or a port above 65535.  The
real WHATWG parser fails on further inputs (other forbidden host code points,
malformed IPv6 or domain syntax); this under-approximation is sound for the
theorems here, which either hold for any failure predicate or exhibit a
failure the real parser shares. -/
def hostParseFails (auth : Str) : Bool :=
  (auth.contains '[' && !(auth.contains ']')) ||
    (auth.contains ']' && !(auth.contains '[')) ||
    portOverflow auth

/-- The inputs on which `new URL(url, base)` itself throws a `TypeError`
(before any protocol check in `_getAbsoluteUrl` runs): the parsed body has an
authority whose host fails to parse.  `parseURL` describes the value produced
on the remaining, non-throwing inputs. -/
def urlParseThrows (url : Str) (base : JSURL) : Bool :=
  let u := parseURL url base
  hostParseFails ((authorityOf u.rest).drop 2)

/-- `_getAbsoluteUrl(url, clearHash)` (probe.js:829-839): `new URL(url, base)`
against the current document location — which itself throws on an unparseable
input — then throw `Wrong protocol type` when the protocol does not match the
allowed pattern, and clear the fragment on demand. -/
def getAbsoluteUrl (url : Str) (clearHash : Bool) (base : JSURL) : Except Str JSURL :=
  if urlParseThrows url base then
    .error (chars "Invalid URL")
  else
    let u := parseURL url base
    if jsProtoRegexTest (u.scheme ++ [':']) then
      .ok (if clearHash then { u with hash := [] } else u)
    else
      .error (chars "Wrong protocol type: " ++ u.scheme ++ [':'])

/-- The trigger information `Request.toJSON` embeds for a request with a
triggerer: the `_elementToString` rendering of the triggerer's element and the
triggerer's event name (probe.js:279). -/
structure TriggerInfo where
  element : Str
  event : Str
deriving DecidableEq

/-- Class `Request` (probe.js:237-285).  `url` is the stored absolute href. -/
structure Request where
  type : Str
  method : Str
  url : Str
  data : Option Str
  triggerer : Option TriggerInfo
deriving DecidableEq

/-- The `Request` constructor (probe.js:246-257): `this.data = data || null`
(an empty string is falsy and becomes null), and the url is resolved with
`_getAbsoluteUrl(urlString, true)`, so construction fails on a disallowed
protocol and the stored url has its fragment cleared. -/
def Request.make (type method : Str) (urlString : Str) (data : Option Str)
    (triggerer : Option TriggerInfo) (base : JSURL) : Except Str Request :=
  match getAbsoluteUrl urlString true base with
  | .ok u =>
      .ok { type := type, method := method, url := u.href,
            data := match data with
              | some d => if d = [] then none else some d
              | none => none,
            triggerer := triggerer }
  | .error e => .error e

/-- JSON string escaping for the characters the model manipulates. -/
def jsonEscapeChar (c : Char) : Str :=
  if c = '"' ∨ c = '\\' then ['\\', c] else [c]

/-- A JSON string literal for `JSON.stringify`. -/
def jsonQuote (s : Str) : Str :=
  '"' :: (s.map jsonEscapeChar).flatten ++ ['"']

/-- `Request.key` (probe.js:262-264): `JSON.stringify(this)`, which serialises
`toJSON()` (probe.js:270-283) — the fields `type`, `method`, `url`, `data`
and, when a triggerer is present, a `trigger` object with the element rendering
and the event name.  Note that the key therefore depends on the triggerer. -/
def Request.key (r : Request) : Str :=
  '\x7b' :: chars "\"type\":" ++ jsonQuote r.type ++
  chars ",\"method\":" ++ jsonQuote r.method ++
  chars ",\"url\":" ++ jsonQuote r.url ++
  chars ",\"data\":" ++ (match r.data with
    | some d => jsonQuote d
    | none => chars "null") ++
  (match r.triggerer with
    | some t => chars ",\"trigger\":" ++ '\x7b' :: chars "\"element\":" ++
        jsonQuote t.element ++ chars ",\"event\":" ++ jsonQuote t.event ++ ['\x7d']
    | none => []) ++ ['\x7d']

/-- The request-reporting state of the probe: `seenRequest` is the crawl-wide
list of already reported dedup keys (probe.js:412), and `emitted` records the
calls to the result sink `window.__PROBE_FN_RETURN_REQUEST__`. -/
structure PrintState where
  seenRequest : List Str
  emitted : List Request
deriving DecidableEq

/-- `Probe.printRequest` (probe.js:418-424): compute the request's key; if it
has not been seen, record it and emit the request, otherwise drop silently. -/
def printRequest (st : PrintState) (request : Request) : PrintState :=
  let requestKey := request.key
  if requestKey ∈ st.seenRequest then st
  else { seenRequest := st.seenRequest ++ [requestKey], emitted := st.emitted ++ [request] }

/-- The value of a run of decimal digits, `none` when the run is empty. -/
def decDigitsVal (l : Str) : Option Nat :=
  let ds := l.takeWhile Char.isDigit
  if ds = [] then none
  else some (ds.foldl (fun n c => n * 10 + (c.toNat - 48)) 0)

/-- JavaScript `parseInt` on the decimal strings the probe feeds it: skip
spaces, read an optional sign and a run of digits; `none` models `NaN` (in
particular `parseInt('') = NaN`). -/
def jsParseInt (s : Str) : Option Int :=
  let t := s.dropWhile (fun c => c == ' ')
  match t with
  | '-' :: r => (decDigitsVal r).map (fun n => -(n : Int))
  | '+' :: r => (decDigitsVal r).map (fun n => (n : Int))
  | r => (decDigitsVal r).map (fun n => (n : Int))

/-- JavaScript number addition with `NaN` propagation (`none` models `NaN`). -/
def jsAddNum (a b : Option Int) : Option Int :=
  match a, b with
  | some x, some y => some (x + y)
  | _, _ => none

/-- `Probe.getRandomValue(type)` (probe.js:462-468): look the type up in the
configured `inputValues` table, falling back to the `string` category. -/
def getRandomValue (inputValues : List (Str × Str)) (type : Str) : Str :=
  let ty := if (inputValues.find? (fun p => p.1 == type)).isSome then type else chars "string"
  ((inputValues.find? (fun p => p.1 == ty)).map Prod.snd).getD []

/-- `new RegExp(pattern, 'gi').test(name)` for the literal-word patterns of the
shipped `inputNameMatchValue` table: a case-insensitive substring test. -/
def jsRegexTestCI (pattern s : Str) : Bool :=
  decide ((pattern.map asciiLowerChar) <:+: (s.map asciiLowerChar))

/-- The `setv` closure of `_setVal` (probe.js:590-599): start from the generic
`string` category and let every matching `inputNameMatchValue` rule override
the chosen category. -/
def setv (inputValues inputNameMatchValue : List (Str × Str)) (name : Str) : Str :=
  inputNameMatchValue.foldl
    (fun ret matchValue =>
      if jsRegexTestCI matchValue.1 name then getRandomValue inputValues matchValue.2 else ret)
    (getRandomValue inputValues (chars "string"))

/-- An input-capable DOM element as `_setVal` reads it: `typeIDL`, `min` and
`step` are the IDL attributes (reflected content attributes, the empty string
when absent); `options` lists the values of a select's option children. -/
structure InputElem where
  tagName : Str
  name : Str
  typeIDL : Str
  min : Str
  step : Str
  checked : Bool
  value : Str
  options : List Str
deriving DecidableEq

/-- A JavaScript value written to `element.value`: a string, or a number where
`none` models `NaN` (assigning `NaN` to a number input clears it). -/
inductive JSVal where
  | str (v : Str)
  | num (v : Option Int)
deriving DecidableEq

/-- What `_setVal` does to the element. -/
inductive ValAction where
  | skip
  | setValue (v : JSVal)
  | toggleChecked
deriving DecidableEq

/-- The effect of one `_setVal` call: the action on the element and whether a
synthetic `input` event is scheduled afterwards (`triggerChange`). -/
structure SetValEffect where
  action : ValAction
  firesInput : Bool
deriving DecidableEq

/-- `'min' in element` (probe.js:646): `HTMLInputElement.prototype` defines the
`min` IDL attribute, so the `in` test is true for every input element. -/
def minInElement (element : InputElem) : Bool := true

/-- `'step' in element` (probe.js:647): `HTMLInputElement.prototype` defines
the `step` IDL attribute, so the `in` test is true for every input element and
`element.step` is the reflected attribute value — the empty string when the
`step` attribute is absent. -/
def stepInElement (element : InputElem) : Bool := true

/-- `Probe._setVal(element)` (probe.js:587-672): per-tag and per-type value
synthesis.  Checkboxes and radios toggle their checked state; number and range
inputs with a non-empty `min` get `parseInt(element.min) + parseInt('step' in
element ? element.step : 1)`; other recognised types draw a value category from
`getRandomValue`; button/hidden/submit/file and unknown types are skipped. -/
def setVal (inputValues inputNameMatchValue : List (Str × Str))
    (element : InputElem) : SetValEffect :=
  let tag := element.tagName.map asciiLowerChar
  if tag = chars "textarea" then
    ⟨.setValue (.str (setv inputValues inputNameMatchValue element.name)), true⟩
  else if tag = chars "select" then
    if element.options.length > 1 then
      ⟨.setValue (.str ((element.options.getLast?).getD [])), true⟩
    else
      ⟨.setValue (.str (setv inputValues inputNameMatchValue element.name)), true⟩
  else if tag = chars "input" then
    let type := element.typeIDL.map asciiLowerChar
    if type = chars "button" ∨ type = chars "hidden" ∨ type = chars "submit" ∨
        type = chars "file" then
      ⟨.skip, false⟩
    else if type = [] ∨ type = chars "text" ∨ type = chars "search" then
      ⟨.setValue (.str (setv inputValues inputNameMatchValue element.name)), true⟩
    else if type = chars "radio" ∨ type = chars "checkbox" then
      ⟨.toggleChecked, true⟩
    else if type = chars "range" ∨ type = chars "number" then
      if minInElement element ∧ element.min ≠ [] then
        ⟨.setValue (.num (jsAddNum (jsParseInt element.min)
            (jsParseInt (if stepInElement element then element.step else chars "1")))), true⟩
      else
        ⟨.setValue (.num (jsParseInt (getRandomValue inputValues (chars "number")))), true⟩
    else if type = chars "password" ∨ type = chars "color" ∨ type = chars "date" ∨
        type = chars "email" ∨ type = chars "month" ∨ type = chars "time" ∨
        type = chars "url" ∨ type = chars "week" ∨ type = chars "tel" then
      ⟨.setValue (.str (getRandomValue inputValues type)), true⟩
    else if type = chars "datetime-local" then
      ⟨.setValue (.str (getRandomValue inputValues (chars "datetimeLocal"))), true⟩
    else
      ⟨.skip, false⟩
  else
    ⟨.skip, false⟩

/-- Characters `encodeURIComponent` leaves unescaped:
`A-Z a-z 0-9 - _ . ! ~ * ' ( )` (the apostrophe is tested by code point). -/
def isUnreservedURIChar (c : Char) : Bool :=
  c.isAlpha || c.isDigit || c == '-' || c == '_' || c == '.' || c == '!' ||
    c == '~' || c == '*' || c.toNat == 39 || c == '(' || c == ')'

/-- Upper-case hexadecimal digit of a value below 16. -/
def hexDigit (n : Nat) : Char :=
  if n < 10 then Char.ofNat (48 + n) else Char.ofNat (55 + n)

/-- The UTF-8 bytes of a character. -/
def utf8Bytes (c : Char) : List Nat :=
  let n := c.toNat
  if n < 128 then [n]
  else if n < 2048 then [192 + n / 64, 128 + n % 64]
  else if n < 65536 then [224 + n / 4096, 128 + (n / 64) % 64, 128 + n % 64]
  else [240 + n / 262144, 128 + (n / 4096) % 64, 128 + (n / 64) % 64, 128 + n % 64]

/-- Percent-encoding of one byte. -/
def percentEncodeByte (b : Nat) : Str :=
  ['%', hexDigit (b / 16), hexDigit (b % 16)]

/-- `encodeURIComponent` on one character. -/
def jsEncodeChar (c : Char) : Str :=
  if isUnreservedURIChar c then [c] else ((utf8Bytes c).map percentEncodeByte).flatten

/-- JavaScript `encodeURIComponent`. -/
def jsEncodeURIComponent (s : Str) : Str :=
  (s.map jsEncodeChar).flatten

/-- One entry of a form's `querySelectorAll('input, select, textarea')` result,
with the fields `getFormAsRequest` reads: DOM `tagName` (upper-case for HTML
elements, compared with `'INPUT'`), the `name` and `value` IDL attributes, the
`type` IDL attribute (never null for an input element) and `checked`. -/
structure FormField where
  tagName : Str
  name : Str
  value : Str
  fieldType : Str
  checked : Bool
deriving DecidableEq

/-- A `<form>` element as `getFormAsRequest` reads it: the `method` and
`action` content attributes (`none` when absent) and the input-capable
descendants in document order. -/
structure FormElem where
  methodAttr : Option Str
  actionAttr : Option Str
  fields : List FormField
deriving DecidableEq

/-- `encodeURIComponent(name) + '=' + encodeURIComponent(value)` (probe.js:504). -/
def fieldPar (f : FormField) : Str :=
  jsEncodeURIComponent f.name ++ '=' :: jsEncodeURIComponent f.value

/-- The `formObj.data` accumulation loop of `getFormAsRequest`
(probe.js:498-524): skip unnamed fields; for `INPUT` elements skip
button/submit types and include checkbox/radio only when checked; include
everything else. -/
def formDataList (fields : List FormField) : List Str :=
  fields.foldl
    (fun acc f =>
      if f.name = [] then acc
      else
        let par := fieldPar f
        if f.tagName = chars "INPUT" then
          let ty := f.fieldType.map asciiLowerChar
          if ty = chars "button" ∨ ty = chars "submit" then acc
          else if ty = chars "checkbox" ∨ ty = chars "radio" then
            if f.checked then acc ++ [par] else acc
          else acc ++ [par]
        else acc ++ [par])
    []

/-- `Array.prototype.join('&')`. -/
def joinAmp : List Str → Str
  | [] => []
  | [x] => x
  | x :: xs => x ++ '&' :: joinAmp xs

/-- The `URL.search` setter: an empty string clears the query, anything else is
stored with a leading `?` (added when not already present). -/
def searchSet (u : JSURL) (s : Str) : JSURL :=
  { u with search := if s = [] then [] else if s.take 1 = ['?'] then s else '?' :: s }

/-- `Probe.getFormAsRequest(form)` (probe.js:483-537): method defaults to GET
when the attribute is absent or empty and is upper-cased otherwise; the target
defaults to `document.location.href` (`docLoc.href`) when `action` is absent or
empty; the data string is the `&`-join of the contributing fields; a GET form
folds the data into the target's query string (`url.search = data`, fragment
kept by `_getAbsoluteUrl(url)` and then dropped by the `Request` constructor),
any other method produces a POST `Request` carrying the data as payload. -/
def getFormAsRequest (docLoc : JSURL) (form : FormElem) : Except Str Request :=
  let m0 := (form.methodAttr.getD [])
  let method := if m0 = [] then chars "GET" else m0.map asciiUpperChar
  let target :=
    match form.actionAttr with
    | some a => if a = [] then JSURL.href docLoc else a
    | none => JSURL.href docLoc
  let data := joinAmp (formDataList form.fields)
  if method = chars "GET" then
    match getAbsoluteUrl target false docLoc with
    | .ok url => Request.make (chars "form") (chars "GET")
        (JSURL.href (searchSet url data)) none none docLoc
    | .error e => .error e
  else
    Request.make (chars "form") (chars "POST") target (some data) none docLoc

/-- Class `PageEvent` (probe.js:291-324): a DOM element paired with an event
name.  `objId` models the JavaScript object identity: every `new PageEvent`
allocates a fresh `objId`, so structural equality of the model coincides with
the reference equality (`indexOf`) used by the queues. -/
structure PageEvent where
  objId : Nat
  elemId : Nat
  eventName : Str
deriving DecidableEq

/-- A DOM element as the probe reads it, addressed by its identity (a `Nat`).
`handlers` lists the event names for which the element has a non-null
`on<event>` property; `selectorEvents` is the concatenation of the
`triggerableEvents` table entries whose selector the element matches;
`descendants` are the identities returned by `getElementsByTagName('*')`;
`input` is the element viewed through the fields `_setVal` reads;
`formFields` is its `querySelectorAll('input, select, textarea')` result. -/
structure ElemData where
  tagName : Str
  handlers : List Str
  selectorEvents : List Str
  descendants : List Nat
  input : InputElem
  methodAttr : Option Str
  actionAttr : Option Str
  formFields : List FormField
  hrefAttr : Option Str
  nameAttr : Str

/-- One `MutationRecord` of the `WebKitMutationObserver` feed
(probe.js:170-200): a `childList` record carrying added nodes (with their DOM
`nodeType`; `Node.ELEMENT_NODE = 1`), or an `attributes` record naming the
mutated element. -/
structure AddedNode where
  id : Nat
  nodeType : Nat
deriving DecidableEq

/-- Kind of mutation record delivered to `nodeMutated`. -/
inductive MutationRecord where
  | childList (addedNodes : List AddedNode)
  | attributes (target : Nat)
deriving DecidableEq

/-- The externally delivered operations that drive the probe: a quiescence
tick (our message event), a DOM mutation batch, XHR lifecycle notifications
(`readystatechange` interception, probe.js:911-920), and an intercepted
`addEventListener` call (probe.js:885-903, which only feeds the events map;
its DOMContentLoaded/load filters are omitted since they only restrict the
reachable states). -/
inductive Op where
  | tick
  | mutated (mutations : List MutationRecord)
  | xhrSent (request : Nat)
  | xhrDone (request : Nat)
  | listenerAdded (element : Nat) (eventName : Str)
deriving DecidableEq

/-- The probe-side state: the four queues, the debounce counter and close flag
of `EventLoopManager`, the events map, the trigger history, the current
trigger context, and the reporting state; `nextObjId` allocates PageEvent
identities, `posted` counts `window.postMessage` calls (tick requests,
immediate or timer-delayed), and `actions` counts `_doNextAction` entries. -/
structure ProbeState where
  domAssessmentQueue : List Nat
  toBeTriggeredEventsQueue : List PageEvent
  sentXHRQueue : List Nat
  doneXHRQueue : List Nat
  emptyLoopCounter : Nat
  isReadyToClose : Bool
  eventsMap : List (Nat × List Str)
  triggeredPageEvents : List PageEvent
  currentPageEvent : Option PageEvent
  prints : PrintState
  nextObjId : Nat
  posted : Nat
  actions : Nat
deriving DecidableEq

/-- `EventLoopManager.scheduleDOMAssessment` (probe.js:164-168): push unless
already queued. -/
def scheduleDOMAssessment (s : ProbeState) (element : Nat) : ProbeState :=
  if element ∈ s.domAssessmentQueue then s
  else { s with domAssessmentQueue := s.domAssessmentQueue ++ [element] }

/-- The `forEach`-with-`splice` purge of `nodeMutated` (probe.js:192-196):
`forEach` captures the length up front and visits indices `0..len-1` of the
*mutating* array, skipping indices that have fallen outside it; a visited
entry whose element matches is removed with `splice(index, 1)` at the current
`forEach` index.  `remaining` counts the visits still to make, so the visited
index is `k` running from 0 to the captured length minus one. -/
def spliceVisit (element : Nat) : List PageEvent → Nat → Nat → List PageEvent
  | arr, k, 0 => arr
  | arr, k, remaining + 1 =>
      let arr2 :=
        if h2 : k < arr.length then
          if (arr.get ⟨k, h2⟩).elemId = element then arr.eraseIdx k else arr
        else arr
      spliceVisit element arr2 (k + 1) remaining

/-- The whole purge loop: visit the indices `0..len-1` with `len` captured
before the first removal. -/
def spliceTriggered (element : Nat) (arr : List PageEvent) : List PageEvent :=
  spliceVisit element arr 0 arr.length

/-- `EventLoopManager.nodeMutated` on one mutation record (probe.js:172-199):
added element nodes are scheduled for DOM assessment; an attribute mutation
purges the trigger history for the target (with the `forEach`/`splice` loop)
and schedules the target for DOM assessment. -/
def nodeMutatedRecord (s : ProbeState) (mutationRecord : MutationRecord) : ProbeState :=
  match mutationRecord with
  | .childList addedNodes =>
      addedNodes.foldl
        (fun s2 addedNode =>
          if addedNode.nodeType = 1 then scheduleDOMAssessment s2 addedNode.id else s2)
        s
  | .attributes target =>
      let purged := spliceTriggered target s.triggeredPageEvents
      let s2 := { s with triggeredPageEvents := purged }
      scheduleDOMAssessment s2 target

/-- `EventLoopManager.nodeMutated` (probe.js:170-200) over a batch. -/
def nodeMutated (s : ProbeState) (mutations : List MutationRecord) : ProbeState :=
  mutations.foldl nodeMutatedRecord s

/-- `EventLoopManager.scheduleEventTriggering` (probe.js:202-208): push unless
the same object is already queued. -/
def scheduleEventTriggering (s : ProbeState) (pageEvent : PageEvent) : ProbeState :=
  if pageEvent ∈ s.toBeTriggeredEventsQueue then s
  else { s with toBeTriggeredEventsQueue := s.toBeTriggeredEventsQueue ++ [pageEvent] }

/-- `EventLoopManager.sentXHR` (probe.js:210-216): dedup into the sent queue. -/
def sentXHR (s : ProbeState) (request : Nat) : ProbeState :=
  if request ∈ s.sentXHRQueue then s
  else { s with sentXHRQueue := s.sentXHRQueue ++ [request] }

/-- `EventLoopManager.doneXHR` (probe.js:218-231): when the request is not
already in the done queue, remove it from the sent queue if present
(`indexOf`/`splice`, i.e. first occurrence) and push it into the done queue. -/
def doneXHR (s : ProbeState) (request : Nat) : ProbeState :=
  if request ∈ s.doneXHRQueue then s
  else { s with sentXHRQueue := s.sentXHRQueue.erase request,
                doneXHRQueue := s.doneXHRQueue ++ [request] }

/-- The events-map update of `Probe.addEventToMap` (probe.js:544-562): the
first entry for the element gets the event name appended; a fresh entry is
created when none exists. -/
def addEventToMapEntries : List (Nat × List Str) → Nat → Str → List (Nat × List Str)
  | [], element, eventName => [(element, [eventName])]
  | en :: rest, element, eventName =>
      if en.1 = element then (en.1, en.2 ++ [eventName]) :: rest
      else en :: addEventToMapEntries rest element eventName

/-- `Probe.addEventToMap` (probe.js:544-562). -/
def addEventToMap (s : ProbeState) (element : Nat) (eventName : Str) : ProbeState :=
  { s with eventsMap := addEventToMapEntries s.eventsMap element eventName }

/-- `Probe._getEventsForElement` (probe.js:693-711): the events of the first
matching map entry, followed by the selector-table events. -/
def getEventsForElement (env : Nat → ElemData) (s : ProbeState) (element : Nat) :
    List Str :=
  (((s.eventsMap.find? (fun en => en.1 == element)).map Prod.snd).getD []) ++
    (env element).selectorEvents

/-- The event names `_triggerElementEvents` never schedules (probe.js:726). -/
def neverFiredEvents : List Str :=
  [chars "load", chars "unload", chars "beforeunload"]

/-- `Probe._isPageEventAlreadyTriggered` (probe.js:738-754): some recorded
event agrees with the candidate on every own field, i.e. on element and event
name. -/
def isPageEventAlreadyTriggered (s : ProbeState) (pageEvent : PageEvent) : Bool :=
  s.triggeredPageEvents.any
    (fun q => q.elemId == pageEvent.elemId && q.eventName == pageEvent.eventName)

/-- `Probe._triggerElementEvents` (probe.js:718-731): for every event of the
element, construct a fresh PageEvent; unless the event is in the never-fired
list or an equal event was already triggered for the element, record it in the
trigger history and schedule it (`_trigger`, probe.js:680-686, delegates to
`scheduleEventTriggering`). -/
def triggerElementEvents (env : Nat → ElemData) (s : ProbeState) (element : Nat) :
    ProbeState :=
  (getEventsForElement env s element).foldl
    (fun s2 eventName =>
      let pageEvent : PageEvent := ⟨s2.nextObjId, element, eventName⟩
      let s3 := { s2 with nextObjId := s2.nextObjId + 1 }
      if !(neverFiredEvents.contains eventName) &&
          !(isPageEventAlreadyTriggered s3 pageEvent) then
        scheduleEventTriggering
          { s3 with triggeredPageEvents := s3.triggeredPageEvents ++ [pageEvent] }
          pageEvent
      else s3)
    s

/-- The configuration the probe runs with: the manager's debounce size, the
watch-list of mappable events, the option gates, the value tables and the
current document location. -/
structure Config where
  bufferCycleSize : Nat
  mappableEvents : List Str
  fillValues : Bool
  triggerEvents : Bool
  inputValues : List (Str × Str)
  inputNameMatchValue : List (Str × Str)
  docLoc : JSURL

/-- The `fillValues` pass of `_analyzeDOMElement` (probe.js:806-812): run
`_setVal` on every descendant; the element's value write is page state (not
probe state), and `triggerChange` (probe.js:602-609) schedules a fresh `input`
PageEvent through `_trigger` for every non-skipped element. -/
def fillElementValues (env : Nat → ElemData) (cfg : Config) (s : ProbeState)
    (element : Nat) : ProbeState :=
  (env element).descendants.foldl
    (fun s2 d =>
      let eff := setVal cfg.inputValues cfg.inputNameMatchValue (env d).input
      if eff.firesInput then
        let pageEvent : PageEvent := ⟨s2.nextObjId, d, chars "input"⟩
        scheduleEventTriggering { s2 with nextObjId := s2.nextObjId + 1 } pageEvent
      else s2)
    s

/-- `_elementToString` (probe.js:848-881), abridged to the element fields the
model carries (tag name and name attribute); this rendering only feeds the
`trigger` part of request keys. -/
def elementToString (env : Nat → ElemData) (element : Nat) : Str :=
  '[' :: (env element).tagName ++ ' ' :: (env element).nameAttr ++ [']']

/-- `Probe.printLink(url)` (probe.js:444-451): build a `link` GET request with
the last triggered PageEvent as triggerer and report it; a constructor throw
is caught and logged. -/
def printLink (env : Nat → ElemData) (cfg : Config) (s : ProbeState) (url : Str) :
    ProbeState :=
  let trig := s.currentPageEvent.map
    (fun pe => TriggerInfo.mk (elementToString env pe.elemId) pe.eventName)
  match Request.make (chars "link") (chars "GET") url none trig cfg.docLoc with
  | .ok req => { s with prints := printRequest s.prints req }
  | .error _ => s

/-- `Probe._printRequestFromForm` (probe.js:775-783). -/
def printRequestFromForm (env : Nat → ElemData) (cfg : Config) (s : ProbeState)
    (element : Nat) : ProbeState :=
  if (env element).tagName.map asciiLowerChar = chars "form" then
    match getFormAsRequest cfg.docLoc
        ⟨(env element).methodAttr, (env element).actionAttr, (env element).formFields⟩ with
    | .ok req => { s with prints := printRequest s.prints req }
    | .error _ => s
  else s

/-- `Probe._printRequestFromATag` (probe.js:790-794).  The `href` IDL
attribute resolves the content attribute against the document; the same
resolution is performed inside `printLink` by `_getAbsoluteUrl`, so the model
passes the raw attribute through. -/
def printRequestFromATag (env : Nat → ElemData) (cfg : Config) (s : ProbeState)
    (element : Nat) : ProbeState :=
  if (env element).tagName.map asciiLowerChar = chars "a" ∧
      ((env element).hrefAttr).isSome then
    printLink env cfg s (((env element).hrefAttr).getD [])
  else s

/-- `Probe._mapElementEvents` (probe.js:760-768): record every mappable event
for which the element exposes a non-null `on<event>` binding. -/
def mapElementEvents (env : Nat → ElemData) (cfg : Config) (s : ProbeState)
    (element : Nat) : ProbeState :=
  cfg.mappableEvents.foldl
    (fun s2 eventName =>
      if (env element).handlers.contains eventName then addEventToMap s2 element eventName
      else s2)
    s

/-- `Probe._analyzeDOMElement` (probe.js:801-820): map events, optionally fill
values, extract form and link requests, optionally schedule the element's
events. -/
def analyzeDOMElement (env : Nat → ElemData) (cfg : Config) (s : ProbeState)
    (element : Nat) : ProbeState :=
  let s1 := mapElementEvents env cfg s element
  let s2 := if cfg.fillValues then fillElementValues env cfg s1 element else s1
  let s3 := printRequestFromForm env cfg s2 element
  let s4 := printRequestFromATag env cfg s3 element
  if cfg.triggerEvents then triggerElementEvents env s4 element else s4

/-- `EventLoopManager._doNextAction` (probe.js:97-162), strict priority:
sent XHRs pending → only re-post a tick; a done XHR → shift it and re-post
(after `afterDoneXHRTimeout`); a DOM assessment → shift it, analyze, re-post;
a pending event → pop it (LIFO), set the trigger context, dispatch on the page
and re-post (after `afterEventTriggeredTimeout`); ready to close → signal
`__PROBE_FN_REQUEST_END__`; otherwise arm the closing timer, which sets the
flag and re-posts.  Timer delays are abstracted: the model applies each
callback at its scheduling point, in order. -/
def doNextAction (env : Nat → ElemData) (cfg : Config) (s0 : ProbeState) : ProbeState :=
  let s := { s0 with actions := s0.actions + 1 }
  if s.sentXHRQueue.length > 0 then
    { s with isReadyToClose := false, posted := s.posted + 1 }
  else if s.doneXHRQueue.length > 0 then
    { s with isReadyToClose := false, doneXHRQueue := s.doneXHRQueue.tail,
             posted := s.posted + 1 }
  else if s.domAssessmentQueue.length > 0 then
    match s.domAssessmentQueue with
    | [] => s
    | element :: rest =>
        let s1 := analyzeDOMElement env cfg
          { s with isReadyToClose := false, domAssessmentQueue := rest } element
        { s1 with posted := s1.posted + 1 }
  else if s.toBeTriggeredEventsQueue.length > 0 then
    match s.toBeTriggeredEventsQueue.getLast? with
    | some pageEvent =>
        { s with isReadyToClose := false,
                 toBeTriggeredEventsQueue := s.toBeTriggeredEventsQueue.dropLast,
                 currentPageEvent := some pageEvent,
                 posted := s.posted + 1 }
    | none => s
  else if s.isReadyToClose then
    s
  else
    { s with isReadyToClose := true, posted := s.posted + 1 }

/-- `EventLoopManager.eventMessageHandler` for our tick message
(probe.js:58-80): below the debounce threshold, re-post and count; at the
threshold, reset the counter and run `_doNextAction`. -/
def eventMessageHandler (env : Nat → ElemData) (cfg : Config) (s : ProbeState) :
    ProbeState :=
  if s.emptyLoopCounter < cfg.bufferCycleSize then
    { s with posted := s.posted + 1, emptyLoopCounter := s.emptyLoopCounter + 1 }
  else
    doNextAction env cfg { s with emptyLoopCounter := 0 }

/-- One externally delivered operation. -/
def step (env : Nat → ElemData) (cfg : Config) (s : ProbeState) : Op → ProbeState
  | .tick => eventMessageHandler env cfg s
  | .mutated mutations => nodeMutated s mutations
  | .xhrSent request => sentXHR s request
  | .xhrDone request => doneXHR s request
  | .listenerAdded element eventName => addEventToMap s element eventName

/-- The state after `Probe.startAnalysis` (probe.js:567-580): every document
element scheduled for DOM assessment, and one message posted by `start()`. -/
def initState (initialElements : List Nat) : ProbeState :=
  let s0 : ProbeState :=
    { domAssessmentQueue := [], toBeTriggeredEventsQueue := [], sentXHRQueue := [],
      doneXHRQueue := [], emptyLoopCounter := 0, isReadyToClose := false,
      eventsMap := [], triggeredPageEvents := [], currentPageEvent := none,
      prints := { seenRequest := [], emitted := [] }, nextObjId := 0,
      posted := 0, actions := 0 }
  let s1 := initialElements.foldl scheduleDOMAssessment s0
  { s1 with posted := s1.posted + 1 }

/-- A whole run: fold the delivered operations from the initial state. -/
def run (env : Nat → ElemData) (cfg : Config) (initialElements : List Nat)
    (ops : List Op) : ProbeState :=
  ops.foldl (step env cfg) (initState initialElements)

/-! ### Concrete example data used by witnesses and counterexamples -/

/-- A concrete document location: `http://example.com/dir/page?q=1`. -/
def exDocLoc : JSURL :=
  ⟨chars "http", chars "//example.com/dir/page", chars "?q=1", []⟩

/-- A concrete `inputValues` table. -/
def exInputValues : List (Str × Str) :=
  [(chars "string", chars "sAx"), (chars "number", chars "4242")]

/-- A plain DIV viewed as an input element (skipped by `_setVal`). -/
def exInputDiv : InputElem :=
  ⟨chars "DIV", [], [], [], [], false, [], []⟩

/-- A plain element with no handlers and no content. -/
def exElem : ElemData :=
  ⟨chars "DIV", [], [], [], exInputDiv, none, none, [], none, []⟩

/-- An element exposing an `onclick` binding. -/
def exElemClick : ElemData :=
  ⟨chars "DIV", [chars "click"], [], [], exInputDiv, none, none, [], none, []⟩

/-- An environment of plain elements. -/
def exEnv : Nat → ElemData := fun _ => exElem

/-- An environment where every element exposes `onclick`. -/
def exEnvClick : Nat → ElemData := fun _ => exElemClick

/-- A concrete configuration with the shipped-style gates on. -/
def exCfg : Config :=
  ⟨2, [chars "click"], true, true, exInputValues, [], exDocLoc⟩

/-- The same configuration without debounce (acts on the first tick). -/
def exCfgNoBuffer : Config :=
  ⟨0, [chars "click"], true, true, exInputValues, [], exDocLoc⟩

/-- A state with one in-flight XHR. -/
def exSentState : ProbeState :=
  { initState [4] with sentXHRQueue := [3] }

/-- A state whose trigger history holds two consecutive events for element 5. -/
def exTriggeredState : ProbeState :=
  { initState [] with triggeredPageEvents :=
      [⟨0, 5, chars "click"⟩, ⟨1, 5, chars "mouseover"⟩] }

/-- The probe-state components `_analyzeDOMElement` never writes. -/
def UntouchedByAnalyze (a b : ProbeState) : Prop :=
  a.domAssessmentQueue = b.domAssessmentQueue ∧
  a.sentXHRQueue = b.sentXHRQueue ∧
  a.doneXHRQueue = b.doneXHRQueue ∧
  a.emptyLoopCounter = b.emptyLoopCounter ∧
  a.isReadyToClose = b.isReadyToClose ∧
  a.currentPageEvent = b.currentPageEvent ∧
  a.posted = b.posted ∧
  a.actions = b.actions

/-- Number/range input with a non-empty `min` and no `step` attribute
(`<input type="number" min="5">`, so the `step` IDL attribute reads `""`). -/
def exNumberInputNoStep : InputElem :=
  ⟨chars "INPUT", chars "quantity", chars "number", chars "5", chars "", false, [], []⟩

/-- The same input with `step="2"`. -/
def exNumberInputStep2 : InputElem :=
  ⟨chars "INPUT", chars "quantity", chars "number", chars "5", chars "2", false, [], []⟩

/-- A number input without a `min` attribute. -/
def exNumberInputNoMin : InputElem :=
  ⟨chars "INPUT", chars "quantity", chars "number", chars "", chars "", false, [], []⟩

/-- A link request carrying no triggerer. -/
def exReqPlain : Request :=
  ⟨chars "link", chars "GET", chars "http://x/y", none, none⟩

/-- The same observation (type, method, url, data) discovered while a `click`
on some anchor was the current trigger context. -/
def exReqTriggered : Request :=
  ⟨chars "link", chars "GET", chars "http://x/y", none,
   some ⟨chars "[A ]", chars "click"⟩⟩

/-- The C6 invariant: no pending event in the trigger queue bears one of the
never-fired names. -/
def EventQueueOk (s : ProbeState) : Bool :=
  s.toBeTriggeredEventsQueue.all (fun pe => !(neverFiredEvents.contains pe.eventName))

/-- A call to the network feed: `sentXHR` or `doneXHR` with a request
reference. -/
inductive XHRCall where
  | sent (request : Nat)
  | done (request : Nat)
deriving DecidableEq

/-- Apply one network-feed call to the probe state. -/
def applyXHRCall (s : ProbeState) : XHRCall → ProbeState
  | .sent request => sentXHR s request
  | .done request => doneXHR s request

/-- Relating two ordered network-feed calls: benign unless the earlier call
completes a reference that the later call sends again. -/
def noResendPair : XHRCall → XHRCall → Prop
  | .done r, .sent r2 => r ≠ r2
  | _, _ => True

/-- The schemes accepted by the protocol regular expression. -/
def allowedSchemes : List Str :=
  [chars "http", chars "https", chars "ftp", chars "sftp", chars "javascript"]

/-- The scheme a url string resolves to against a base (what `parseURL`
stores): an explicit scheme is lower-cased, otherwise the base's scheme is
inherited. -/
def resolvedScheme (url : Str) (base : JSURL) : Str :=
  match schemeSplit (splitQuery (splitHash url).1).1 with
  | some sr => sr.1.map asciiLowerChar
  | none => base.scheme

/-- A url string is in absolute form when it carries a scheme prefix. -/
def isAbsoluteUrl (s : Str) : Bool :=
  (schemeSplit s).isSome

/-- Well-formedness of a base URL (the document location): a non-empty scheme
of scheme characters starting with a letter, and a body free of `#` and `?`. -/
def JSURLWF (base : JSURL) : Prop :=
  base.scheme ≠ [] ∧ (∀ c ∈ base.scheme, isSchemeChar c = true) ∧
  (base.scheme.headD ' ').isAlpha = true ∧
  (∀ c ∈ base.rest, c ≠ '#' ∧ c ≠ '?')

instance (base : JSURL) : Decidable (JSURLWF base) := by
  unfold JSURLWF
  infer_instance

/-- Claim-side test for C8: the fields contributing data to a serialized form
are the named ones, excluding button/submit inputs, with checkbox/radio inputs
contributing only when checked. -/
def contributesField (f : FormField) : Bool :=
  decide (f.name ≠ []) &&
    (if f.tagName = chars "INPUT" then
      let ty := f.fieldType.map asciiLowerChar
      !(decide (ty = chars "button" ∨ ty = chars "submit")) &&
        (!(decide (ty = chars "checkbox" ∨ ty = chars "radio")) || f.checked)
    else true)

/-- Claim-side data string for C8: the `&`-join of the `name=value` pairs of
the contributing fields. -/
def specFormData (fields : List FormField) : Str :=
  joinAmp ((fields.filter contributesField).map fieldPar)

/-- Scenario B: `<form method="post" action="/s">` containing
`<input name="a" value="1">`. -/
def exFormScenarioB : FormElem :=
  ⟨some (chars "post"), some (chars "/s"),
   [⟨chars "INPUT", chars "a", chars "1", chars "text", false⟩]⟩

/-! ### Generic helper lemmas -/

/-- A predicate preserved by every step of a fold is preserved by the fold. -/
theorem foldlPreserve {α σ : Type _} (f : σ → α → σ) (P : σ → Prop)
    (h : ∀ s a, P s → P (f s a)) : ∀ (l : List α) (s : σ), P s → P (l.foldl f s) := by
  intro l
  induction l with
  | nil => exact fun s hs => hs
  | cons a t ih => exact fun s hs => ih _ (h s a hs)

theorem untouched_refl (s : ProbeState) : UntouchedByAnalyze s s :=
  ⟨rfl, rfl, rfl, rfl, rfl, rfl, rfl, rfl⟩

theorem untouched_trans {a b c : ProbeState} (h1 : UntouchedByAnalyze a b)
    (h2 : UntouchedByAnalyze b c) : UntouchedByAnalyze a c := by
  obtain ⟨u1, u2, u3, u4, u5, u6, u7, u8⟩ := h1
  obtain ⟨v1, v2, v3, v4, v5, v6, v7, v8⟩ := h2
  exact ⟨u1.trans v1, u2.trans v2, u3.trans v3, u4.trans v4, u5.trans v5,
    u6.trans v6, u7.trans v7, u8.trans v8⟩

theorem untouched_foldl {α : Type _} (f : ProbeState → α → ProbeState)
    (hf : ∀ s a, UntouchedByAnalyze (f s a) s) (l : List α) (s : ProbeState) :
    UntouchedByAnalyze (l.foldl f s) s :=
  foldlPreserve f (fun x => UntouchedByAnalyze x s)
    (fun s2 a h2 => untouched_trans (hf s2 a) h2) l s (untouched_refl s)

theorem addEventToMap_untouched (s : ProbeState) (element : Nat) (eventName : Str) :
    UntouchedByAnalyze (addEventToMap s element eventName) s :=
  ⟨rfl, rfl, rfl, rfl, rfl, rfl, rfl, rfl⟩

theorem scheduleEventTriggering_untouched (s : ProbeState) (pageEvent : PageEvent) :
    UntouchedByAnalyze (scheduleEventTriggering s pageEvent) s := by
  unfold scheduleEventTriggering
  split
  · exact untouched_refl s
  · exact ⟨rfl, rfl, rfl, rfl, rfl, rfl, rfl, rfl⟩

theorem mapElementEvents_untouched (env : Nat → ElemData) (cfg : Config)
    (s : ProbeState) (element : Nat) :
    UntouchedByAnalyze (mapElementEvents env cfg s element) s := by
  unfold mapElementEvents
  refine untouched_foldl _ (fun s2 a => ?_) _ _
  split
  · exact addEventToMap_untouched s2 element a
  · exact untouched_refl s2

theorem fillElementValues_untouched (env : Nat → ElemData) (cfg : Config)
    (s : ProbeState) (element : Nat) :
    UntouchedByAnalyze (fillElementValues env cfg s element) s := by
  unfold fillElementValues
  refine untouched_foldl _ (fun s2 a => ?_) _ _
  dsimp only
  split
  · exact untouched_trans
      (scheduleEventTriggering_untouched { s2 with nextObjId := s2.nextObjId + 1 } _)
      ⟨rfl, rfl, rfl, rfl, rfl, rfl, rfl, rfl⟩
  · exact untouched_refl s2

theorem printLink_untouched (env : Nat → ElemData) (cfg : Config) (s : ProbeState)
    (url : Str) : UntouchedByAnalyze (printLink env cfg s url) s := by
  unfold printLink
  dsimp only
  split
  · exact ⟨rfl, rfl, rfl, rfl, rfl, rfl, rfl, rfl⟩
  · exact untouched_refl s

theorem printRequestFromForm_untouched (env : Nat → ElemData) (cfg : Config)
    (s : ProbeState) (element : Nat) :
    UntouchedByAnalyze (printRequestFromForm env cfg s element) s := by
  unfold printRequestFromForm
  split
  · split
    · exact ⟨rfl, rfl, rfl, rfl, rfl, rfl, rfl, rfl⟩
    · exact untouched_refl s
  · exact untouched_refl s

theorem printRequestFromATag_untouched (env : Nat → ElemData) (cfg : Config)
    (s : ProbeState) (element : Nat) :
    UntouchedByAnalyze (printRequestFromATag env cfg s element) s := by
  unfold printRequestFromATag
  split
  · exact printLink_untouched env cfg s _
  · exact untouched_refl s

theorem triggerElementEvents_untouched (env : Nat → ElemData) (s : ProbeState)
    (element : Nat) : UntouchedByAnalyze (triggerElementEvents env s element) s := by
  unfold triggerElementEvents
  refine untouched_foldl _ (fun s2 a => ?_) _ _
  dsimp only
  split
  · exact untouched_trans (scheduleEventTriggering_untouched _ _)
      ⟨rfl, rfl, rfl, rfl, rfl, rfl, rfl, rfl⟩
  · exact ⟨rfl, rfl, rfl, rfl, rfl, rfl, rfl, rfl⟩

theorem analyzeDOMElement_untouched (env : Nat → ElemData) (cfg : Config)
    (s : ProbeState) (element : Nat) :
    UntouchedByAnalyze (analyzeDOMElement env cfg s element) s := by
  unfold analyzeDOMElement
  dsimp only
  set a1 := mapElementEvents env cfg s element with ha1
  set a2 := if cfg.fillValues = true then fillElementValues env cfg a1 element else a1 with ha2
  set a3 := printRequestFromForm env cfg a2 element with ha3
  set a4 := printRequestFromATag env cfg a3 element with ha4
  have h1 : UntouchedByAnalyze a1 s := mapElementEvents_untouched env cfg s element
  have h2 : UntouchedByAnalyze a2 a1 := by
    rw [ha2]
    split
    · exact fillElementValues_untouched env cfg a1 element
    · exact untouched_refl a1
  have h3 : UntouchedByAnalyze a3 a2 := printRequestFromForm_untouched env cfg a2 element
  have h4 : UntouchedByAnalyze a4 a3 := printRequestFromATag_untouched env cfg a3 element
  have h5 : UntouchedByAnalyze
      (if cfg.triggerEvents = true then triggerElementEvents env a4 element else a4) a4 := by
    split
    · exact triggerElementEvents_untouched env a4 element
    · exact untouched_refl a4
  exact untouched_trans h5 (untouched_trans h4 (untouched_trans h3 (untouched_trans h2 h1)))

theorem doNextAction_actions (env : Nat → ElemData) (cfg : Config) (s : ProbeState) :
    (doNextAction env cfg s).actions = s.actions + 1 := by
  unfold doNextAction
  dsimp only
  split
  · rfl
  split
  · rfl
  split
  · split
    · rfl
    · exact (analyzeDOMElement_untouched env cfg _ _).2.2.2.2.2.2.2
  split
  · split
    · rfl
    · rfl
  split
  · rfl
  · rfl

theorem doNextAction_counter (env : Nat → ElemData) (cfg : Config) (s : ProbeState) :
    (doNextAction env cfg s).emptyLoopCounter = s.emptyLoopCounter := by
  unfold doNextAction
  dsimp only
  split
  · rfl
  split
  · rfl
  split
  · split
    · rfl
    · exact (analyzeDOMElement_untouched env cfg _ _).2.2.2.1
  split
  · split
    · rfl
    · rfl
  split
  · rfl
  · rfl

/-! ### C2 — sent queue non-empty: `_doNextAction` is a pure re-tick -/

/-- C2: whenever the sent-request queue is non-empty at the moment
`_doNextAction` runs, it pops no item from any queue and leaves all four
queues (sent, done, DOM-assessment, pending-event) unchanged; it only
re-requests a tick (exactly one more posted message). -/
theorem c2_doNextAction_sent_in_flight_frame (env : Nat → ElemData) (cfg : Config)
    (s : ProbeState) (h : s.sentXHRQueue ≠ []) :
    (doNextAction env cfg s).sentXHRQueue = s.sentXHRQueue ∧
    (doNextAction env cfg s).doneXHRQueue = s.doneXHRQueue ∧
    (doNextAction env cfg s).domAssessmentQueue = s.domAssessmentQueue ∧
    (doNextAction env cfg s).toBeTriggeredEventsQueue = s.toBeTriggeredEventsQueue ∧
    (doNextAction env cfg s).posted = s.posted + 1 := by
  have hlen : 0 < s.sentXHRQueue.length := List.length_pos.mpr h
  unfold doNextAction
  dsimp only
  rw [if_pos hlen]
  exact ⟨rfl, rfl, rfl, rfl, rfl⟩

/-- C2 witness: the frame property at a state holding one in-flight XHR. -/
theorem c2_witness_sent_in_flight :
    exSentState.sentXHRQueue ≠ [] ∧
    (doNextAction exEnv exCfg exSentState).domAssessmentQueue =
      exSentState.domAssessmentQueue :=
  ⟨by decide,
   (c2_doNextAction_sent_in_flight_frame exEnv exCfg exSentState (by decide)).2.2.1⟩

/-! ### C9 — tick debounce: three idle ticks, one action -/

/-- C9: with `bufferCycleSize = 2` and the empty-loop counter at 0, three
consecutive idle ticks invoke `_doNextAction` exactly once — the first two
ticks each re-post a tick and increment the counter, and the third resets the
counter to 0 and executes the action. -/
theorem c9_three_ticks_one_action (env : Nat → ElemData) (cfg : Config)
    (s : ProbeState) (h1 : cfg.bufferCycleSize = 2) (h2 : s.emptyLoopCounter = 0) :
    (eventMessageHandler env cfg s).actions = s.actions ∧
    (eventMessageHandler env cfg s).posted = s.posted + 1 ∧
    (eventMessageHandler env cfg s).emptyLoopCounter = 1 ∧
    (eventMessageHandler env cfg (eventMessageHandler env cfg s)).actions = s.actions ∧
    (eventMessageHandler env cfg (eventMessageHandler env cfg s)).posted = s.posted + 2 ∧
    (eventMessageHandler env cfg (eventMessageHandler env cfg s)).emptyLoopCounter = 2 ∧
    (eventMessageHandler env cfg (eventMessageHandler env cfg
      (eventMessageHandler env cfg s))).actions = s.actions + 1 ∧
    (eventMessageHandler env cfg (eventMessageHandler env cfg
      (eventMessageHandler env cfg s))).emptyLoopCounter = 0 := by
  have t1 : eventMessageHandler env cfg s =
      { s with posted := s.posted + 1, emptyLoopCounter := s.emptyLoopCounter + 1 } := by
    unfold eventMessageHandler
    rw [if_pos (by omega)]
  have t2 : eventMessageHandler env cfg (eventMessageHandler env cfg s) =
      { s with posted := s.posted + 2, emptyLoopCounter := s.emptyLoopCounter + 2 } := by
    rw [t1]
    unfold eventMessageHandler
    dsimp only
    rw [if_pos (by omega)]
  have t3 : eventMessageHandler env cfg (eventMessageHandler env cfg
      (eventMessageHandler env cfg s)) =
      doNextAction env cfg { s with posted := s.posted + 2, emptyLoopCounter := 0 } := by
    rw [t2]
    unfold eventMessageHandler
    dsimp only
    rw [if_neg (by omega)]
  refine ⟨?_, ?_, ?_, ?_, ?_, ?_, ?_, ?_⟩
  · rw [t1]
  · rw [t1]
  · rw [t1]; dsimp only; omega
  · rw [t2]
  · rw [t2]
  · rw [t2]; dsimp only; omega
  · rw [t3, doNextAction_actions]
  · rw [t3, doNextAction_counter]

/-- C9 witness: the three-tick run from the initial state under the concrete
configuration. -/
theorem c9_witness_three_ticks :
    exCfg.bufferCycleSize = 2 ∧ (initState [4]).emptyLoopCounter = 0 ∧
    (eventMessageHandler exEnv exCfg (eventMessageHandler exEnv exCfg
      (eventMessageHandler exEnv exCfg (initState [4])))).actions =
      (initState [4]).actions + 1 :=
  ⟨rfl, by decide,
   (c9_three_ticks_one_action exEnv exCfg (initState [4]) rfl (by decide)).2.2.2.2.2.2.1⟩

/-! ### C3 — attribute mutation purges the trigger history incompletely -/

/-- C3 (evaluation at the failing input): an attribute-change mutation for
element 5 with the trigger history `[(5, click), (5, mouseover)]` removes only
the first record — the `forEach`/`splice` loop skips the entry that shifts
into the removed slot, so a PageEvent for element 5 survives — while the
element is enqueued for DOM assessment as required. -/
theorem c3_attribute_purge_skips_adjacent_record :
    (step exEnv exCfg exTriggeredState (.mutated [.attributes 5])).triggeredPageEvents =
      [⟨1, 5, chars "mouseover"⟩] ∧
    (step exEnv exCfg exTriggeredState (.mutated [.attributes 5])).domAssessmentQueue =
      [5] := by decide

/-! ### C4 — number/range value synthesis with a missing step -/

/-- C4 (evaluation at the failing input): `<input type="number" min="5">`
without a `step` attribute gets `parseInt('5') + parseInt('')`, i.e. `NaN`
(the `: 1` fallback is dead because `'step' in element` always holds), not
`min + 1 = 6`; with `step="2"` the value is `min + step = 7`; without `min`
the random-number category is used (`parseInt('4242')`). -/
theorem c4_missing_step_yields_nan :
    setVal exInputValues [] exNumberInputNoStep =
      ⟨.setValue (.num none), true⟩ ∧
    setVal exInputValues [] exNumberInputStep2 =
      ⟨.setValue (.num (some 7)), true⟩ ∧
    setVal exInputValues [] exNumberInputNoMin =
      ⟨.setValue (.num (some 4242)), true⟩ := by decide

/-! ### C1 — request dedup key includes the triggerer -/

/-- C1 counterexample: two Requests identical in (type, method, url, data) but
with different triggerer fields are both emitted by `printRequest`: the dedup
key is `JSON.stringify(this)`, which also serialises the `trigger` field, so
the two keys differ. -/
theorem c1_counterexample_triggerer_splits_key :
    exReqPlain.type = exReqTriggered.type ∧
    exReqPlain.method = exReqTriggered.method ∧
    exReqPlain.url = exReqTriggered.url ∧
    exReqPlain.data = exReqTriggered.data ∧
    (printRequest (printRequest ⟨[], []⟩ exReqPlain) exReqTriggered).emitted =
      [exReqPlain, exReqTriggered] := by decide

/-- C1 amended: `printRequest` emits at most one request per dedup key, where
the key canonically serialises (type, method, url, data) *and*, when present,
the triggerer (element rendering and event name): over any report sequence
from a fresh probe the emitted requests have pairwise-distinct keys. -/
theorem c1_amended_emitted_keys_nodup (requests : List Request) :
    ((requests.foldl printRequest ⟨[], []⟩).emitted.map Request.key).Nodup := by
  have main :
      (∀ r ∈ (requests.foldl printRequest ⟨[], []⟩).emitted,
          r.key ∈ (requests.foldl printRequest ⟨[], []⟩).seenRequest) ∧
      ((requests.foldl printRequest ⟨[], []⟩).emitted.map Request.key).Nodup := by
    refine foldlPreserve printRequest
      (fun st => (∀ r ∈ st.emitted, r.key ∈ st.seenRequest) ∧
        (st.emitted.map Request.key).Nodup) ?_ requests ⟨[], []⟩ (by simp)
    intro s r hinv
    unfold printRequest
    dsimp only
    split
    · exact hinv
    · rename_i hns
      constructor
      · intro q hq
        rcases List.mem_append.mp hq with hq | hq
        · exact List.mem_append.mpr (Or.inl (hinv.1 q hq))
        · have : q = r := by simpa using hq
          subst this
          exact List.mem_append.mpr (Or.inr (by simp))
      · rw [List.map_append, List.nodup_append]
        refine ⟨hinv.2, by simp, ?_⟩
        intro k hk
        simp only [List.map_cons, List.map_nil, List.mem_singleton]
        intro heq
        rcases List.mem_map.mp hk with ⟨q, hq, rfl⟩
        exact hns (heq ▸ hinv.1 q hq)
  exact main.2

/-! ### C7 — sent/done queue exclusivity -/

theorem sentXHR_mem {s : ProbeState} {q : Nat} (h : q ∈ s.sentXHRQueue) :
    sentXHR s q = s := by
  unfold sentXHR
  rw [if_pos h]

theorem sentXHR_not_mem {s : ProbeState} {q : Nat} (h : q ∉ s.sentXHRQueue) :
    sentXHR s q = { s with sentXHRQueue := s.sentXHRQueue ++ [q] } := by
  unfold sentXHR
  rw [if_neg h]

theorem doneXHR_mem {s : ProbeState} {q : Nat} (h : q ∈ s.doneXHRQueue) :
    doneXHR s q = s := by
  unfold doneXHR
  rw [if_pos h]

theorem doneXHR_not_mem {s : ProbeState} {q : Nat} (h : q ∉ s.doneXHRQueue) :
    doneXHR s q = { s with sentXHRQueue := s.sentXHRQueue.erase q,
                           doneXHRQueue := s.doneXHRQueue ++ [q] } := by
  unfold doneXHR
  rw [if_neg h]

theorem xhr_disjoint_aux (calls : List XHRCall) :
    ∀ s : ProbeState, calls.Pairwise noResendPair →
    (∀ r : Nat, ¬(r ∈ s.sentXHRQueue ∧ r ∈ s.doneXHRQueue)) →
    (∀ r : Nat, r ∈ s.doneXHRQueue → XHRCall.sent r ∉ calls) →
    s.sentXHRQueue.Nodup →
    ∀ r : Nat, ¬(r ∈ (calls.foldl applyXHRCall s).sentXHRQueue ∧
      r ∈ (calls.foldl applyXHRCall s).doneXHRQueue) := by
  induction calls with
  | nil => exact fun s _ hdisj _ _ => hdisj
  | cons c rest ih =>
    intro s hpw hdisj hfut hnd r
    rw [List.foldl_cons]
    obtain ⟨hhead, htail⟩ := List.pairwise_cons.mp hpw
    match c with
    | .sent q =>
        rw [show applyXHRCall s (.sent q) = sentXHR s q from rfl]
        by_cases hq : q ∈ s.sentXHRQueue
        · rw [sentXHR_mem hq]
          exact ih s htail hdisj
            (fun r2 h2 hm => hfut r2 h2 (List.mem_cons_of_mem _ hm)) hnd r
        · rw [sentXHR_not_mem hq]
          refine ih _ htail ?_ ?_ ?_ r
          · intro r2 hr2
            rcases List.mem_append.mp hr2.1 with hm | hm
            · exact hdisj r2 ⟨hm, hr2.2⟩
            · have heq : r2 = q := by simpa using hm
              subst heq
              exact hfut r2 hr2.2 (List.mem_cons_self _ _)
          · exact fun r2 h2 hm => hfut r2 h2 (List.mem_cons_of_mem _ hm)
          · exact List.Nodup.append hnd (List.nodup_singleton q)
              (by intro x hx hx2
                  exact hq ((List.mem_singleton.mp hx2) ▸ hx))
        | .done q =>
        rw [show applyXHRCall s (.done q) = doneXHR s q from rfl]
        by_cases hq : q ∈ s.doneXHRQueue
        · rw [doneXHR_mem hq]
          exact ih s htail hdisj
            (fun r2 h2 hm => hfut r2 h2 (List.mem_cons_of_mem _ hm)) hnd r
        · rw [doneXHR_not_mem hq]
          refine ih _ htail ?_ ?_ ?_ r
          · intro r2 hr2
            rcases List.mem_append.mp hr2.2 with hm | hm
            · exact hdisj r2 ⟨(List.erase_sublist q s.sentXHRQueue).mem hr2.1, hm⟩
            · have heq : r2 = q := by simpa using hm
              subst heq
              exact hnd.not_mem_erase hr2.1
          · intro r2 h2 hm
            rcases List.mem_append.mp h2 with hd | hd
            · exact hfut r2 hd (List.mem_cons_of_mem _ hm)
            · have heq : r2 = q := by simpa using hd
              subst heq
              have hpair := hhead _ hm
              unfold noResendPair at hpair
              exact hpair rfl
          · exact hnd.erase q

/-- C7 amended: after any sequence of `sentXHR`/`doneXHR` calls in which no
reference is sent again after having completed (the code does not guard
against a completed request being re-sent), every reference is in at most one
of the sent and done queues; and `doneXHR`, when the reference is not already
completed, removes it from the sent queue and appends it to the done queue. -/
theorem c7_amended_queues_exclusive (calls : List XHRCall)
    (h : calls.Pairwise noResendPair) (r : Nat) :
    ¬(r ∈ (calls.foldl applyXHRCall (initState [])).sentXHRQueue ∧
      r ∈ (calls.foldl applyXHRCall (initState [])).doneXHRQueue) ∧
    (∀ s : ProbeState, r ∉ s.doneXHRQueue →
      (doneXHR s r).sentXHRQueue = s.sentXHRQueue.erase r ∧
      (doneXHR s r).doneXHRQueue = s.doneXHRQueue ++ [r]) := by
  constructor
  · exact xhr_disjoint_aux calls (initState []) h
      (fun r2 h2 => List.not_mem_nil r2 h2.1)
      (fun r2 h2 => (List.not_mem_nil r2 h2).elim)
      List.nodup_nil r
  · intro s hs
    rw [doneXHR_not_mem hs]
    exact ⟨rfl, rfl⟩

/-- C7 counterexample: calling `doneXHR(7)` and then `sentXHR(7)` on a fresh
manager leaves the reference in both queues, because `sentXHR` never checks
the done queue — so the claim fails for arbitrary call sequences. -/
theorem c7_counterexample_resend_after_done :
    (7 : Nat) ∈ (applyXHRCall (applyXHRCall (initState []) (.done 7)) (.sent 7)).sentXHRQueue ∧
    (7 : Nat) ∈ (applyXHRCall (applyXHRCall (initState []) (.done 7)) (.sent 7)).doneXHRQueue := by
  decide

/-- C7 witness: the exclusivity invariant applied to the ordinary lifecycle
`sentXHR(1); doneXHR(1)`. -/
theorem c7_witness_ordinary_lifecycle :
    ([XHRCall.sent 1, XHRCall.done 1].Pairwise noResendPair) ∧
    ¬((1 : Nat) ∈ ([XHRCall.sent 1, XHRCall.done 1].foldl applyXHRCall
        (initState [])).sentXHRQueue ∧
      (1 : Nat) ∈ ([XHRCall.sent 1, XHRCall.done 1].foldl applyXHRCall
        (initState [])).doneXHRQueue) :=
  ⟨by simp [List.pairwise_cons, noResendPair],
   (c7_amended_queues_exclusive [XHRCall.sent 1, XHRCall.done 1]
      (by simp [List.pairwise_cons, noResendPair]) 1).1⟩

/-! ### C6 — never-fired events are never pending -/

theorem EventQueueOk_congr {a b : ProbeState}
    (h : a.toBeTriggeredEventsQueue = b.toBeTriggeredEventsQueue) :
    EventQueueOk a = EventQueueOk b := by
  unfold EventQueueOk
  rw [h]

theorem scheduleDOMAssessment_queue (s : ProbeState) (element : Nat) :
    (scheduleDOMAssessment s element).toBeTriggeredEventsQueue =
      s.toBeTriggeredEventsQueue := by
  unfold scheduleDOMAssessment
  split <;> rfl

theorem addEventToMap_queue (s : ProbeState) (element : Nat) (eventName : Str) :
    (addEventToMap s element eventName).toBeTriggeredEventsQueue =
      s.toBeTriggeredEventsQueue := rfl

theorem printLink_queue (env : Nat → ElemData) (cfg : Config) (s : ProbeState)
    (url : Str) :
    (printLink env cfg s url).toBeTriggeredEventsQueue = s.toBeTriggeredEventsQueue := by
  unfold printLink
  dsimp only
  split <;> rfl

theorem printRequestFromForm_queue (env : Nat → ElemData) (cfg : Config)
    (s : ProbeState) (element : Nat) :
    (printRequestFromForm env cfg s element).toBeTriggeredEventsQueue =
      s.toBeTriggeredEventsQueue := by
  unfold printRequestFromForm
  split
  · split <;> rfl
  · rfl

theorem printRequestFromATag_queue (env : Nat → ElemData) (cfg : Config)
    (s : ProbeState) (element : Nat) :
    (printRequestFromATag env cfg s element).toBeTriggeredEventsQueue =
      s.toBeTriggeredEventsQueue := by
  unfold printRequestFromATag
  split
  · exact printLink_queue env cfg s _
  · rfl

theorem mapElementEvents_queue (env : Nat → ElemData) (cfg : Config)
    (s : ProbeState) (element : Nat) :
    (mapElementEvents env cfg s element).toBeTriggeredEventsQueue =
      s.toBeTriggeredEventsQueue := by
  unfold mapElementEvents
  refine foldlPreserve _
    (fun x : ProbeState => x.toBeTriggeredEventsQueue = s.toBeTriggeredEventsQueue)
    ?_ _ _ rfl
  intro s2 a h2
  dsimp only
  split
  · rw [addEventToMap_queue, h2]
  · exact h2

theorem scheduleEventTriggering_ok {s : ProbeState} {pageEvent : PageEvent}
    (h : EventQueueOk s = true)
    (hn : neverFiredEvents.contains pageEvent.eventName = false) :
    EventQueueOk (scheduleEventTriggering s pageEvent) = true := by
  unfold scheduleEventTriggering
  split
  · exact h
  · unfold EventQueueOk at h ⊢
    rw [List.all_append, h, Bool.true_and]
    simp only [List.all_cons, List.all_nil, Bool.and_true, hn, Bool.not_false]

theorem fillElementValues_ok (env : Nat → ElemData) (cfg : Config)
    (s : ProbeState) (element : Nat) (h : EventQueueOk s = true) :
    EventQueueOk (fillElementValues env cfg s element) = true := by
  unfold fillElementValues
  refine foldlPreserve _ (fun x => EventQueueOk x = true) ?_ _ _ h
  intro s2 a h2
  dsimp only
  split
  · exact scheduleEventTriggering_ok h2 rfl
  · exact h2

theorem triggerElementEvents_ok (env : Nat → ElemData) (s : ProbeState)
    (element : Nat) (h : EventQueueOk s = true) :
    EventQueueOk (triggerElementEvents env s element) = true := by
  unfold triggerElementEvents
  refine foldlPreserve _ (fun x => EventQueueOk x = true) ?_ _ _ h
  intro s2 a h2
  dsimp only
  split
  · rename_i hcond
    have hns : neverFiredEvents.contains a = false := by
      by_contra hb
      rw [Bool.not_eq_false] at hb
      rw [hb] at hcond
      simp at hcond
    refine scheduleEventTriggering_ok ?_ hns
    exact h2
  · exact h2

theorem analyzeDOMElement_ok (env : Nat → ElemData) (cfg : Config)
    (s : ProbeState) (element : Nat) (h : EventQueueOk s = true) :
    EventQueueOk (analyzeDOMElement env cfg s element) = true := by
  unfold analyzeDOMElement
  dsimp only
  set a1 := mapElementEvents env cfg s element with ha1
  have h1 : EventQueueOk a1 = true := by
    rw [EventQueueOk_congr (mapElementEvents_queue env cfg s element)]
    exact h
  set a2 := if cfg.fillValues = true then fillElementValues env cfg a1 element else a1
    with ha2
  have h2 : EventQueueOk a2 = true := by
    rw [ha2]
    split
    · exact fillElementValues_ok env cfg a1 element h1
    · exact h1
  set a3 := printRequestFromForm env cfg a2 element with ha3
  have h3 : EventQueueOk a3 = true := by
    rw [EventQueueOk_congr (printRequestFromForm_queue env cfg a2 element)]
    exact h2
  set a4 := printRequestFromATag env cfg a3 element with ha4
  have h4 : EventQueueOk a4 = true := by
    rw [EventQueueOk_congr (printRequestFromATag_queue env cfg a3 element)]
    exact h3
  split
  · exact triggerElementEvents_ok env a4 element h4
  · exact h4

theorem all_dropLast {p : PageEvent → Bool} {l : List PageEvent}
    (h : l.all p = true) : l.dropLast.all p = true := by
  rw [List.all_eq_true] at h ⊢
  exact fun x hx => h x ((List.dropLast_sublist l).mem hx)

theorem doNextAction_ok (env : Nat → ElemData) (cfg : Config) (s : ProbeState)
    (h : EventQueueOk s = true) : EventQueueOk (doNextAction env cfg s) = true := by
  unfold doNextAction
  dsimp only
  split
  · exact h
  split
  · exact h
  split
  · split
    · exact h
    · rename_i element rest heq
      set smid : ProbeState :=
        { s with actions := s.actions + 1, isReadyToClose := false,
                 domAssessmentQueue := rest } with hsmid
      have hmid : EventQueueOk smid = true := h
      have := analyzeDOMElement_ok env cfg smid element hmid
      rw [EventQueueOk_congr (a := { analyzeDOMElement env cfg smid element with
        posted := (analyzeDOMElement env cfg smid element).posted + 1 })
        (b := analyzeDOMElement env cfg smid element) rfl]
      exact this
  split
  · split
    · unfold EventQueueOk at h ⊢
      exact all_dropLast h
    · exact h
  split
  · exact h
  · exact h

theorem nodeMutated_queue (s : ProbeState) (mutations : List MutationRecord) :
    (nodeMutated s mutations).toBeTriggeredEventsQueue = s.toBeTriggeredEventsQueue := by
  unfold nodeMutated
  refine foldlPreserve _
    (fun x : ProbeState => x.toBeTriggeredEventsQueue = s.toBeTriggeredEventsQueue)
    ?_ _ _ rfl
  intro s2 a h2
  unfold nodeMutatedRecord
  match a with
  | .childList addedNodes =>
      refine foldlPreserve _
        (fun x : ProbeState => x.toBeTriggeredEventsQueue = s.toBeTriggeredEventsQueue)
        ?_ _ _ h2
      intro s3 n h3
      dsimp only
      split
      · rw [scheduleDOMAssessment_queue]
        exact h3
      · exact h3
  | .attributes target =>
      dsimp only
      rw [scheduleDOMAssessment_queue]
      exact h2

theorem sentXHR_queue (s : ProbeState) (request : Nat) :
    (sentXHR s request).toBeTriggeredEventsQueue = s.toBeTriggeredEventsQueue := by
  unfold sentXHR
  split <;> rfl

theorem doneXHR_queue (s : ProbeState) (request : Nat) :
    (doneXHR s request).toBeTriggeredEventsQueue = s.toBeTriggeredEventsQueue := by
  unfold doneXHR
  split <;> rfl

theorem eventMessageHandler_ok (env : Nat → ElemData) (cfg : Config)
    (s : ProbeState) (h : EventQueueOk s = true) :
    EventQueueOk (eventMessageHandler env cfg s) = true := by
  unfold eventMessageHandler
  split
  · exact h
  · exact doNextAction_ok env cfg _ h

theorem step_ok (env : Nat → ElemData) (cfg : Config) (s : ProbeState) (op : Op)
    (h : EventQueueOk s = true) : EventQueueOk (step env cfg s op) = true := by
  match op with
  | .tick => exact eventMessageHandler_ok env cfg s h
  | .mutated mutations =>
      rw [show step env cfg s (.mutated mutations) = nodeMutated s mutations from rfl,
        EventQueueOk_congr (nodeMutated_queue s mutations)]
      exact h
  | .xhrSent request =>
      rw [show step env cfg s (.xhrSent request) = sentXHR s request from rfl,
        EventQueueOk_congr (sentXHR_queue s request)]
      exact h
  | .xhrDone request =>
      rw [show step env cfg s (.xhrDone request) = doneXHR s request from rfl,
        EventQueueOk_congr (doneXHR_queue s request)]
      exact h
  | .listenerAdded element eventName =>
      rw [show step env cfg s (.listenerAdded element eventName) =
        addEventToMap s element eventName from rfl,
        EventQueueOk_congr (addEventToMap_queue s element eventName)]
      exact h

theorem initState_ok (initialElements : List Nat) :
    EventQueueOk (initState initialElements) = true := by
  unfold initState
  dsimp only
  have hq : ∀ l : List Nat, ∀ s : ProbeState,
      s.toBeTriggeredEventsQueue = [] →
      (l.foldl scheduleDOMAssessment s).toBeTriggeredEventsQueue = [] := by
    intro l
    refine foldlPreserve _ (fun x : ProbeState => x.toBeTriggeredEventsQueue = []) ?_ l
    intro s2 a h2
    rw [scheduleDOMAssessment_queue]
    exact h2
  unfold EventQueueOk
  rw [hq initialElements
    { domAssessmentQueue := [], toBeTriggeredEventsQueue := [], sentXHRQueue := [],
      doneXHRQueue := [], emptyLoopCounter := 0, isReadyToClose := false,
      eventsMap := [], triggeredPageEvents := [], currentPageEvent := none,
      prints := { seenRequest := [], emitted := [] }, nextObjId := 0,
      posted := 0, actions := 0 } rfl]
  rfl

/-- C6: in every reachable state of the scheduler — any operation sequence
delivered from the initial state — no PageEvent named load, unload or
beforeunload is present in the pending-event queue: `_triggerElementEvents`
filters these names before scheduling, and the `input` events scheduled by
value synthesis are not among them. -/
theorem c6_never_fired_events_not_pending (env : Nat → ElemData) (cfg : Config)
    (initialElements : List Nat) (ops : List Op) :
    EventQueueOk (run env cfg initialElements ops) = true := by
  unfold run
  refine foldlPreserve _ (fun x : ProbeState => EventQueueOk x = true) ?_ _ _
    (initState_ok initialElements)
  exact fun s op h => step_ok env cfg s op h

/-! ### C5 / C10 — URL scheme validation and fragment clearing -/

theorem asciiLowerChar_schemeChar {c : Char} (h : isSchemeChar c = true) :
    isSchemeChar (asciiLowerChar c) = true := by
  unfold asciiLowerChar
  split <;> first | decide | exact h

theorem asciiLowerChar_alpha {c : Char} (h : c.isAlpha = true) :
    (asciiLowerChar c).isAlpha = true := by
  unfold asciiLowerChar
  split <;> first | decide | exact h

theorem schemeChar_ne {c x : Char} (h : isSchemeChar c = true)
    (hx : isSchemeChar x = false) : c ≠ x := by
  intro heq
  rw [heq, hx] at h
  exact Bool.false_ne_true h

theorem takeWhile_all_append {p : Char → Bool} {l : Str} (m : Str)
    (h : ∀ c ∈ l, p c = true) : (l ++ m).takeWhile p = l ++ m.takeWhile p := by
  induction l with
  | nil => rfl
  | cons a t ih =>
      simp only [List.cons_append, List.takeWhile_cons, h a (List.mem_cons_self a t),
        if_true]
      rw [ih (fun c hc => h c (List.mem_cons_of_mem a hc))]

theorem dropWhile_all_append {p : Char → Bool} {l : Str} (m : Str)
    (h : ∀ c ∈ l, p c = true) : (l ++ m).dropWhile p = m.dropWhile p := by
  induction l with
  | nil => rfl
  | cons a t ih =>
      simp only [List.cons_append, List.dropWhile_cons, h a (List.mem_cons_self a t),
        if_true]
      exact ih (fun c hc => h c (List.mem_cons_of_mem a hc))

theorem schemeSplit_mem {l sc r : Str} (h : schemeSplit l = some (sc, r)) :
    ∀ c ∈ sc, isSchemeChar c = true := by
  unfold schemeSplit at h
  dsimp only at h
  split at h
  · rename_i p ps r2 hpre hrest
    split at h
    · injection h with h2
      injection h2 with h3 h4
      intro c hc
      rw [← h3] at hc
      rw [← hpre] at hc
      exact List.mem_takeWhile_imp hc
    · exact absurd h (by simp)
  · exact absurd h (by simp)

theorem schemeSplit_head_alpha {l sc r : Str} (h : schemeSplit l = some (sc, r)) :
    (sc.headD ' ').isAlpha = true := by
  unfold schemeSplit at h
  dsimp only at h
  split at h
  · rename_i p ps r2 hpre hrest
    split at h
    · injection h with h2
      injection h2 with h3 h4
      rw [← h3]
      rename_i halpha
      simpa using halpha
    · exact absurd h (by simp)
  · exact absurd h (by simp)

theorem schemeSplit_ne_nil {l sc r : Str} (h : schemeSplit l = some (sc, r)) :
    sc ≠ [] := by
  unfold schemeSplit at h
  dsimp only at h
  split at h
  · rename_i p ps r2 hpre hrest
    split at h
    · injection h with h2
      injection h2 with h3 h4
      rw [← h3]
      exact List.cons_ne_nil p ps
    · exact absurd h (by simp)
  · exact absurd h (by simp)

theorem schemeSplit_decomp {l sc r : Str} (h : schemeSplit l = some (sc, r)) :
    l = sc ++ ':' :: r := by
  unfold schemeSplit at h
  dsimp only at h
  split at h
  · rename_i p ps r2 hpre hrest
    split at h
    · injection h with h2
      injection h2 with h3 h4
      rw [← h3, ← h4]
      rw [← hpre, ← hrest]
      exact (List.takeWhile_append_dropWhile isSchemeChar l).symm
    · exact absurd h (by simp)
  · exact absurd h (by simp)

theorem schemeSplit_roundtrip {sc rest : Str} (h1 : sc ≠ [])
    (h2 : ∀ c ∈ sc, isSchemeChar c = true) (h3 : (sc.headD ' ').isAlpha = true) :
    schemeSplit (sc ++ ':' :: rest) = some (sc, rest) := by
  unfold schemeSplit
  have hcolon : isSchemeChar ':' = false := by decide
  have htake : (sc ++ ':' :: rest).takeWhile isSchemeChar = sc := by
    rw [takeWhile_all_append _ h2]
    simp [List.takeWhile_cons, hcolon]
  have hdrop : (sc ++ ':' :: rest).dropWhile isSchemeChar = ':' :: rest := by
    rw [dropWhile_all_append _ h2]
    simp [List.dropWhile_cons, hcolon]
  rw [htake, hdrop]
  match sc, h1 with
  | p :: ps, _ =>
      have hp : p.isAlpha = true := by simpa using h3
      simp [hp]

theorem prefix_colon_iff {p s : Str} (hp : ':' ∉ p) (hs : ':' ∉ s) :
    ((p ++ [':']).isPrefixOf (s ++ [':']) = true) ↔ p = s := by
  rw [List.isPrefixOf_iff_prefix]
  constructor
  · intro h
    have hlen : p.length + 1 ≤ s.length + 1 := by
      have := h.length_le
      simpa using this
    rcases Nat.lt_or_ge p.length s.length with hlt | hge
    · exfalso
      have htake := List.prefix_iff_eq_take.mp h
      rw [List.take_append_of_le_length (by simp; omega)] at htake
      have : ':' ∈ s.take (p ++ [':']).length := by
        rw [← htake]
        exact List.mem_append.mpr (Or.inr (List.mem_singleton.mpr rfl))
      exact hs ((List.take_sublist _ _).mem this)
    · have heq := h.eq_of_length (by simp; omega)
      have := congrArg List.dropLast heq
      rwa [List.dropLast_concat, List.dropLast_concat] at this
  · intro h
    rw [h]

theorem protoTest_iff {sc : Str} (hnc : ':' ∉ sc) :
    jsProtoRegexTest (sc ++ [':']) = true ↔ sc ∈ allowedSchemes := by
  have e1 : chars "http:" = chars "http" ++ [':'] := rfl
  have e2 : chars "https:" = chars "https" ++ [':'] := rfl
  have e3 : chars "ftp:" = chars "ftp" ++ [':'] := rfl
  have e4 : chars "sftp:" = chars "sftp" ++ [':'] := rfl
  have e5 : chars "javascript:" = chars "javascript" ++ [':'] := rfl
  unfold jsProtoRegexTest protoPatterns
  simp only [List.any_cons, List.any_nil, Bool.or_eq_true, Bool.or_false]
  rw [e1, e2, e3, e4, e5]
  rw [prefix_colon_iff (by decide) hnc, prefix_colon_iff (by decide) hnc,
    prefix_colon_iff (by decide) hnc, prefix_colon_iff (by decide) hnc,
    prefix_colon_iff (by decide) hnc]
  unfold allowedSchemes
  simp only [List.mem_cons, List.not_mem_nil, or_false]
  constructor
  · intro h
    rcases h with h | h | h | h | h
    · exact Or.inl h.symm
    · exact Or.inr (Or.inl h.symm)
    · exact Or.inr (Or.inr (Or.inl h.symm))
    · exact Or.inr (Or.inr (Or.inr (Or.inl h.symm)))
    · exact Or.inr (Or.inr (Or.inr (Or.inr h.symm)))
  · intro h
    rcases h with h | h | h | h | h
    · exact Or.inl h.symm
    · exact Or.inr (Or.inl h.symm)
    · exact Or.inr (Or.inr (Or.inl h.symm))
    · exact Or.inr (Or.inr (Or.inr (Or.inl h.symm)))
    · exact Or.inr (Or.inr (Or.inr (Or.inr h.symm)))

theorem parseURL_scheme (url : Str) (base : JSURL) :
    (parseURL url base).scheme = resolvedScheme url base := by
  unfold parseURL resolvedScheme
  dsimp only
  cases h : schemeSplit (splitQuery (splitHash url).1).1 <;> simp [h]

theorem resolvedScheme_props (url : Str) (base : JSURL) (hb : JSURLWF base) :
    resolvedScheme url base ≠ [] ∧
    (∀ c ∈ resolvedScheme url base, isSchemeChar c = true) ∧
    ((resolvedScheme url base).headD ' ').isAlpha = true := by
  unfold resolvedScheme
  cases h : schemeSplit (splitQuery (splitHash url).1).1 with
  | none => exact ⟨hb.1, hb.2.1, hb.2.2.1⟩
  | some sr =>
      obtain ⟨sc, r⟩ := sr
      dsimp only
      refine ⟨?_, ?_, ?_⟩
      · have := schemeSplit_ne_nil h
        simpa using this
      · intro c hc
        rcases List.mem_map.mp hc with ⟨c0, hc0, rfl⟩
        exact asciiLowerChar_schemeChar (schemeSplit_mem h c0 hc0)
      · have hhd := schemeSplit_head_alpha h
        have hne := schemeSplit_ne_nil h
        match sc, hne with
        | p :: ps, _ =>
            simp only [List.map_cons, List.headD_cons]
            exact asciiLowerChar_alpha (by simpa using hhd)

/-- C5 counterexample: `http://[` resolves to the allowed scheme `http`, yet
`new URL` rejects it (an unmatched `[` makes the host unparseable), so the
`Request` constructor fails even though the scheme is allowed — the claim's
"fails only if the scheme is disallowed" direction is false of the program. -/
theorem c5_counterexample_invalid_host :
    resolvedScheme (chars "http://[") exDocLoc ∈ allowedSchemes ∧
    (Request.make (chars "link") (chars "GET") (chars "http://[") none none
      exDocLoc).isOk = false := by
  decide

/-- C5 amended: construction fails when the URL parser itself rejects the url
string (`new URL` throws) or when the resolved scheme is not one of http,
https, ftp, sftp, javascript — so success implies an allowed scheme, a
disallowed scheme always fails (the `Wrong protocol type` throw, the spec's
`InvalidUrl`), and on success the stored url is in absolute form (it carries
a scheme prefix). -/
theorem c5_request_construction_scheme (type method : Str) (data : Option Str)
    (triggerer : Option TriggerInfo) (url : Str) (base : JSURL) (hb : JSURLWF base) :
    ((Request.make type method url data triggerer base).isOk = true →
      resolvedScheme url base ∈ allowedSchemes) ∧
    (resolvedScheme url base ∉ allowedSchemes →
      (Request.make type method url data triggerer base).isOk = false) ∧
    (∀ r : Request, Request.make type method url data triggerer base = .ok r →
      isAbsoluteUrl r.url = true) := by
  obtain ⟨hne, hchars, halpha⟩ := resolvedScheme_props url base hb
  have hnc : ':' ∉ resolvedScheme url base := fun hmem =>
    absurd (hchars ':' hmem) (by decide)
  have hts := protoTest_iff hnc
  have hsch := parseURL_scheme url base
  have hkey : (Request.make type method url data triggerer base).isOk =
      (!(urlParseThrows url base) &&
        jsProtoRegexTest (resolvedScheme url base ++ [':'])) := by
    unfold Request.make getAbsoluteUrl
    dsimp only
    rw [hsch]
    by_cases hthrow : urlParseThrows url base = true
    · rw [if_pos hthrow, hthrow]
      rfl
    · rw [if_neg hthrow]
      rw [Bool.not_eq_true] at hthrow
      rw [hthrow]
      by_cases hcond : jsProtoRegexTest (resolvedScheme url base ++ [':']) = true
      · rw [if_pos hcond, hcond]
        rfl
      · rw [if_neg hcond]
        rw [Bool.not_eq_true] at hcond
        rw [hcond]
        rfl
  refine ⟨?_, ?_, ?_⟩
  · rw [hkey]
    intro h
    by_cases hb2 : jsProtoRegexTest (resolvedScheme url base ++ [':']) = true
    · exact hts.mp hb2
    · rw [Bool.not_eq_true] at hb2
      rw [hb2, Bool.and_false] at h
      exact absurd h (by decide)
  · rw [hkey]
    intro hmem
    have hj : jsProtoRegexTest (resolvedScheme url base ++ [':']) = false := by
      by_contra hb2
      rw [Bool.not_eq_false] at hb2
      exact hmem (hts.mp hb2)
    rw [hj, Bool.and_false]
  · intro r hr
    unfold Request.make getAbsoluteUrl at hr
    dsimp only at hr
    rw [hsch] at hr
    by_cases hthrow : urlParseThrows url base = true
    · rw [if_pos hthrow] at hr
      exact absurd hr (by simp)
    · rw [if_neg hthrow] at hr
      by_cases hcond : jsProtoRegexTest (resolvedScheme url base ++ [':']) = true
      · rw [if_pos hcond, if_pos (rfl : true = true)] at hr
        injection hr with hr2
        subst hr2
        have hhref : JSURL.href
            { scheme := resolvedScheme url base, rest := (parseURL url base).rest,
              search := (parseURL url base).search, hash := [] } =
            resolvedScheme url base ++
              ':' :: ((parseURL url base).rest ++ (parseURL url base).search) := by
          unfold JSURL.href
          dsimp only
          simp [List.cons_append, List.append_assoc]
        unfold isAbsoluteUrl
        dsimp only
        rw [hhref, schemeSplit_roundtrip hne hchars halpha]
        rfl
      · rw [if_neg hcond] at hr
        exact absurd hr (by simp)

/-- C5 witness: the success-implies-allowed-scheme direction applied to
`https://x/y` against the concrete document location. -/
theorem c5_witness_scheme_validation :
    JSURLWF exDocLoc ∧
    ((Request.make (chars "link") (chars "GET") (chars "https://x/y") none none
        exDocLoc).isOk = true →
      resolvedScheme (chars "https://x/y") exDocLoc ∈ allowedSchemes) :=
  ⟨by decide,
   (c5_request_construction_scheme (chars "link") (chars "GET") none none
      (chars "https://x/y") exDocLoc (by decide)).1⟩

theorem mem_authorityOf {c : Char} {r : Str} (h : c ∈ authorityOf r) :
    c = '/' ∨ c ∈ r := by
  unfold authorityOf at h
  split at h
  · rcases List.mem_append.mp h with hm | hm
    · left
      rcases List.mem_cons.mp hm with h2 | h2
      · exact h2
      · simpa using h2
    · right
      exact ((List.takeWhile_sublist _).trans (List.drop_sublist 2 r)).mem hm
  · exact absurd h (List.not_mem_nil c)

theorem mem_pathOf {c : Char} {r : Str} (h : c ∈ pathOf r) : c ∈ r := by
  unfold pathOf at h
  split at h
  · exact (List.drop_sublist 2 r).mem ((List.dropWhile_sublist _).mem h)
  · exact h

theorem mem_dirOf {c : Char} {p : Str} (h : c ∈ dirOf p) : c ∈ p := by
  unfold dirOf at h
  rw [List.mem_reverse] at h
  exact List.mem_reverse.mp ((List.dropWhile_sublist _).mem h)

theorem mem_resolveRest {c : Char} {baseRest core : Str}
    (h : c ∈ resolveRest baseRest core) : c = '/' ∨ c ∈ baseRest ∨ c ∈ core := by
  unfold resolveRest at h
  split at h
  · exact Or.inr (Or.inl h)
  · split at h
    · exact Or.inr (Or.inr h)
    · split at h
      · rcases List.mem_append.mp h with hm | hm
        · rcases mem_authorityOf hm with h2 | h2
          · exact Or.inl h2
          · exact Or.inr (Or.inl h2)
        · exact Or.inr (Or.inr hm)
      · rcases List.mem_append.mp h with hm | hm
        · rcases List.mem_append.mp hm with h2 | h2
          · rcases mem_authorityOf h2 with h3 | h3
            · exact Or.inl h3
            · exact Or.inr (Or.inl h3)
          · exact Or.inr (Or.inl (mem_pathOf (mem_dirOf h2)))
        · exact Or.inr (Or.inr hm)

theorem splitHash_fst_hash_free (url : Str) :
    ∀ c ∈ (splitHash url).1, c ≠ '#' := by
  intro c hc
  unfold splitHash at hc
  have := List.mem_takeWhile_imp hc
  simpa using this

theorem core_hash_free (url : Str) :
    ∀ c ∈ (splitQuery (splitHash url).1).1, c ≠ '#' := by
  intro c hc
  unfold splitQuery at hc
  exact splitHash_fst_hash_free url c ((List.takeWhile_sublist _).mem hc)

theorem search_hash_free (url : Str) :
    ∀ c ∈ (splitQuery (splitHash url).1).2, c ≠ '#' := by
  intro c hc
  unfold splitQuery at hc
  exact splitHash_fst_hash_free url c ((List.dropWhile_sublist _).mem hc)

theorem parseURL_rest_hash_free (url : Str) (base : JSURL) (hb : JSURLWF base) :
    ∀ c ∈ (parseURL url base).rest, c ≠ '#' := by
  intro c hc
  unfold parseURL at hc
  dsimp only at hc
  cases hsp : schemeSplit (splitQuery (splitHash url).1).1 with
  | some sr =>
      obtain ⟨sc, r2⟩ := sr
      rw [hsp] at hc
      dsimp only at hc
      apply core_hash_free url c
      rw [schemeSplit_decomp hsp]
      exact List.mem_append.mpr (Or.inr (List.mem_cons_of_mem _ hc))
  | none =>
      rw [hsp] at hc
      dsimp only at hc
      rcases mem_resolveRest hc with h | h | h
      · rw [h]
        decide
      · exact (hb.2.2.2 c h).1
      · exact core_hash_free url c h

theorem parseURL_search (url : Str) (base : JSURL) :
    (parseURL url base).search = (splitQuery (splitHash url).1).2 := by
  unfold parseURL
  dsimp only
  cases hsp : schemeSplit (splitQuery (splitHash url).1).1 <;> simp [hsp]

theorem parseURL_search_hash_free (url : Str) (base : JSURL) :
    ∀ c ∈ (parseURL url base).search, c ≠ '#' := by
  intro c hc
  rw [parseURL_search] at hc
  exact search_hash_free url c hc

/-- C10: every successfully constructed Request stores a url with the fragment
removed — the `Request` constructor resolves with `_getAbsoluteUrl(urlString,
true)`, which clears `u.hash`, so the stored url contains no `#` character for
any input url, including one with a fragment. -/
theorem c10_request_url_fragment_free (type method : Str) (data : Option Str)
    (triggerer : Option TriggerInfo) (url : Str) (base : JSURL) (hb : JSURLWF base) :
    ∀ r : Request, Request.make type method url data triggerer base = .ok r →
      r.url.all (fun c => c != '#') = true := by
  intro r hr
  obtain ⟨hne, hchars, halpha⟩ := resolvedScheme_props url base hb
  have hsch := parseURL_scheme url base
  unfold Request.make getAbsoluteUrl at hr
  dsimp only at hr
  rw [hsch] at hr
  by_cases hthrow : urlParseThrows url base = true
  · rw [if_pos hthrow] at hr
    exact absurd hr (by simp)
  rw [if_neg hthrow] at hr
  by_cases hcond : jsProtoRegexTest (resolvedScheme url base ++ [':']) = true
  · rw [if_pos hcond, if_pos (rfl : true = true)] at hr
    injection hr with hr2
    subst hr2
    rw [List.all_eq_true]
    intro c hc
    simp only [bne_iff_ne, ne_eq]
    unfold JSURL.href at hc
    dsimp only at hc
    rcases List.mem_append.mp hc with h1 | h1
    · rcases List.mem_append.mp h1 with h2 | h2
      · rcases List.mem_append.mp h2 with h3 | h3
        · intro heq
          subst heq
          exact absurd (hchars _ h3) (by decide)
        · rcases List.mem_cons.mp h3 with h4 | h4
          · rw [h4]
            decide
          · exact parseURL_rest_hash_free url base hb c h4
      · exact parseURL_search_hash_free url base c h2
    · exact absurd h1 (List.not_mem_nil c)
  · rw [if_neg hcond] at hr
    exact absurd hr (by simp)

/-- C10 witness: a url carrying a fragment, resolved against the concrete
document location, is stored without it. -/
theorem c10_witness_fragment_dropped :
    JSURLWF exDocLoc ∧
    Request.make (chars "link") (chars "GET") (chars "http://x/p#frag") none none
        exDocLoc =
      .ok ⟨chars "link", chars "GET", chars "http://x/p", none, none⟩ ∧
    (chars "http://x/p").all (fun c => c != '#') = true :=
  ⟨by decide, by rfl,
   c10_request_url_fragment_free (chars "link") (chars "GET") none none
     (chars "http://x/p#frag") exDocLoc (by decide)
     ⟨chars "link", chars "GET", chars "http://x/p", none, none⟩ (by rfl)⟩

/-! ### C8 — form serialization -/

theorem takeWhile_eq_self_of_all {p : Char → Bool} {l : Str}
    (h : ∀ c ∈ l, p c = true) : l.takeWhile p = l := by
  induction l with
  | nil => rfl
  | cons a t ih =>
      rw [List.takeWhile_cons, h a (List.mem_cons_self a t)]
      simp only [if_true]
      rw [ih (fun c hc => h c (List.mem_cons_of_mem a hc))]

theorem dropWhile_eq_nil_of_all {p : Char → Bool} {l : Str}
    (h : ∀ c ∈ l, p c = true) : l.dropWhile p = [] := by
  induction l with
  | nil => rfl
  | cons a t ih =>
      rw [List.dropWhile_cons, h a (List.mem_cons_self a t)]
      simp only [if_true]
      exact ih (fun c hc => h c (List.mem_cons_of_mem a hc))

theorem char_toNat_lt (c : Char) : c.toNat < 1114112 := by
  rcases c.valid with h | h
  · exact Nat.lt_trans h (by norm_num)
  · exact h.2

theorem hexDigit_safe {n : Nat} (h : n < 16) :
    hexDigit n ≠ '#' ∧ hexDigit n ≠ '?' := by
  interval_cases n <;> exact (by decide)

theorem mem_utf8Bytes_lt {b : Nat} {c : Char} (h : b ∈ utf8Bytes c) : b < 256 := by
  have hc := char_toNat_lt c
  unfold utf8Bytes at h
  dsimp only at h
  split at h
  · rename_i h1
    rcases List.mem_singleton.mp h with rfl
    omega
  · split at h
    · rename_i h1 h2
      rcases List.mem_cons.mp h with rfl | h3
      · omega
      · rcases List.mem_singleton.mp h3 with rfl
        omega
    · split at h
      · rename_i h1 h2 h3
        rcases List.mem_cons.mp h with rfl | h4
        · omega
        · rcases List.mem_cons.mp h4 with rfl | h5
          · omega
          · rcases List.mem_singleton.mp h5 with rfl
            omega
      · rename_i h1 h2 h3
        rcases List.mem_cons.mp h with rfl | h4
        · omega
        · rcases List.mem_cons.mp h4 with rfl | h5
          · omega
          · rcases List.mem_cons.mp h5 with rfl | h6
            · omega
            · rcases List.mem_singleton.mp h6 with rfl
              omega

theorem mem_percentEncodeByte_safe {x : Char} {b : Nat} (hb : b < 256)
    (h : x ∈ percentEncodeByte b) : x ≠ '#' ∧ x ≠ '?' := by
  unfold percentEncodeByte at h
  rcases List.mem_cons.mp h with rfl | h2
  · exact ⟨by decide, by decide⟩
  · rcases List.mem_cons.mp h2 with rfl | h3
    · exact hexDigit_safe (by omega)
    · rcases List.mem_singleton.mp h3 with rfl
      exact hexDigit_safe (by omega)

theorem mem_jsEncodeChar_safe {x c : Char} (h : x ∈ jsEncodeChar c) :
    x ≠ '#' ∧ x ≠ '?' := by
  unfold jsEncodeChar at h
  split at h
  · rename_i hu
    rcases List.mem_singleton.mp h with rfl
    constructor
    · intro heq
      rw [heq] at hu
      exact absurd hu (by decide)
    · intro heq
      rw [heq] at hu
      exact absurd hu (by decide)
  · rcases List.mem_flatten.mp h with ⟨part, hpart, hx⟩
    rcases List.mem_map.mp hpart with ⟨b, hb, rfl⟩
    exact mem_percentEncodeByte_safe (mem_utf8Bytes_lt hb) hx

theorem mem_jsEncode_safe {x : Char} {s : Str} (h : x ∈ jsEncodeURIComponent s) :
    x ≠ '#' ∧ x ≠ '?' := by
  unfold jsEncodeURIComponent at h
  rcases List.mem_flatten.mp h with ⟨part, hpart, hx⟩
  rcases List.mem_map.mp hpart with ⟨c, hc, rfl⟩
  exact mem_jsEncodeChar_safe hx

theorem mem_fieldPar_safe {x : Char} {f : FormField} (h : x ∈ fieldPar f) :
    x ≠ '#' ∧ x ≠ '?' := by
  unfold fieldPar at h
  rcases List.mem_append.mp h with h1 | h1
  · exact mem_jsEncode_safe h1
  · rcases List.mem_cons.mp h1 with rfl | h2
    · exact ⟨by decide, by decide⟩
    · exact mem_jsEncode_safe h2

theorem mem_joinAmp {x : Char} {parts : List Str} (h : x ∈ joinAmp parts) :
    x = '&' ∨ ∃ p ∈ parts, x ∈ p := by
  induction parts with
  | nil => exact absurd h (List.not_mem_nil x)
  | cons a t ih =>
      match t with
      | [] =>
          right
          exact ⟨a, List.mem_cons_self a [], h⟩
      | b :: t2 =>
          rw [show joinAmp (a :: b :: t2) = a ++ '&' :: joinAmp (b :: t2) from rfl] at h
          rcases List.mem_append.mp h with h1 | h1
          · exact Or.inr ⟨a, List.mem_cons_self _ _, h1⟩
          · rcases List.mem_cons.mp h1 with rfl | h2
            · exact Or.inl rfl
            · rcases ih h2 with h3 | ⟨p, hp, hx⟩
              · exact Or.inl h3
              · exact Or.inr ⟨p, List.mem_cons_of_mem a hp, hx⟩

theorem specFormData_safe (fields : List FormField) :
    ∀ c ∈ specFormData fields, c ≠ '#' ∧ c ≠ '?' := by
  intro c hc
  unfold specFormData at hc
  rcases mem_joinAmp hc with rfl | ⟨p, hp, hx⟩
  · exact ⟨by decide, by decide⟩
  · rcases List.mem_map.mp hp with ⟨f, hf, rfl⟩
    exact mem_fieldPar_safe hx

theorem formDataList_aux (fields : List FormField) (acc : List Str) :
    fields.foldl
      (fun acc f =>
        if f.name = [] then acc
        else
          let par := fieldPar f
          if f.tagName = chars "INPUT" then
            let ty := f.fieldType.map asciiLowerChar
            if ty = chars "button" ∨ ty = chars "submit" then acc
            else if ty = chars "checkbox" ∨ ty = chars "radio" then
              if f.checked then acc ++ [par] else acc
            else acc ++ [par]
          else acc ++ [par])
      acc =
    acc ++ (fields.filter contributesField).map fieldPar := by
  induction fields generalizing acc with
  | nil => simp
  | cons f rest ih =>
      rw [List.foldl_cons, List.filter_cons]
      dsimp only
      have hstep : (if f.name = [] then acc
          else
            if f.tagName = chars "INPUT" then
              if f.fieldType.map asciiLowerChar = chars "button" ∨
                  f.fieldType.map asciiLowerChar = chars "submit" then acc
              else if f.fieldType.map asciiLowerChar = chars "checkbox" ∨
                  f.fieldType.map asciiLowerChar = chars "radio" then
                if f.checked then acc ++ [fieldPar f] else acc
              else acc ++ [fieldPar f]
            else acc ++ [fieldPar f]) =
          acc ++ (if contributesField f then [fieldPar f] else []) := by
        unfold contributesField
        dsimp only
        by_cases h1 : f.name = []
        · simp [h1]
        · rw [if_neg h1]
          by_cases h2 : f.tagName = chars "INPUT"
          · rw [if_pos h2, if_pos h2]
            by_cases h3 : f.fieldType.map asciiLowerChar = chars "button" ∨
                f.fieldType.map asciiLowerChar = chars "submit"
            · simp [h1, h3]
            · by_cases h4 : f.fieldType.map asciiLowerChar = chars "checkbox" ∨
                  f.fieldType.map asciiLowerChar = chars "radio"
              · by_cases h5 : f.checked = true <;> simp [h1, h3, h4, h5]
              · simp [h1, h3, h4]
          · rw [if_neg h2, if_neg h2]
            simp [h1]
      rw [hstep]
      by_cases hcf : contributesField f = true
      · rw [if_pos hcf, if_pos hcf, ih, List.map_cons]
        simp [List.append_assoc]
      · rw [if_neg hcf, if_neg hcf, ih]
        simp

theorem formDataList_eq_filter (fields : List FormField) :
    formDataList fields = (fields.filter contributesField).map fieldPar := by
  unfold formDataList
  simpa using formDataList_aux fields []

theorem requestMake_ok_fields {type method urlString : Str} {data : Option Str}
    {triggerer : Option TriggerInfo} {base : JSURL} {r : Request}
    (h : Request.make type method urlString data triggerer base = .ok r) :
    r.type = type ∧ r.method = method ∧ r.triggerer = triggerer ∧
    (data = none → r.data = none) ∧
    (∀ d : Str, data = some d → r.data = if d = [] then none else some d) := by
  unfold Request.make at h
  split at h
  · injection h with h2
    subst h2
    refine ⟨rfl, rfl, rfl, ?_, ?_⟩
    · intro hd
      subst hd
      rfl
    · intro d hd
      subst hd
      rfl
  · exact absurd h (by simp)

theorem parseURL_concrete_query (data : Str) (hS : ∀ c ∈ data, c ≠ '#' ∧ c ≠ '?') :
    parseURL (chars "http://example.com/dir/page" ++ '?' :: data) exDocLoc =
      ⟨chars "http", chars "//example.com/dir/page", '?' :: data, []⟩ := by
  have hconc1 : ∀ c ∈ chars "http://example.com/dir/page", (c != '#') = true := by
    decide
  have hconc2 : ∀ c ∈ chars "http://example.com/dir/page", (c != '?') = true := by
    decide
  have hdata1 : ∀ c ∈ ('?' :: data), (c != '#') = true := by
    intro c hc
    rcases List.mem_cons.mp hc with rfl | h2
    · decide
    · simpa using (hS c h2).1
  unfold parseURL splitHash splitQuery
  dsimp only
  rw [takeWhile_all_append _ hconc1, takeWhile_eq_self_of_all hdata1]
  rw [dropWhile_all_append _ hconc1, dropWhile_eq_nil_of_all hdata1]
  rw [takeWhile_all_append _ hconc2]
  rw [show ('?' :: data).takeWhile (fun c => c != '?') = [] from by
    rw [List.takeWhile_cons]
    simp]
  rw [dropWhile_all_append _ hconc2]
  rw [show ('?' :: data).dropWhile (fun c => c != '?') = '?' :: data from by
    rw [List.dropWhile_cons]
    simp]
  rw [List.append_nil]
  rw [show schemeSplit (chars "http://example.com/dir/page") =
    some (chars "http", chars "//example.com/dir/page") from by decide]
  dsimp only
  rw [show (chars "http").map asciiLowerChar = chars "http" from by decide]

theorem requestMake_query (data : Str) (hS : ∀ c ∈ data, c ≠ '#' ∧ c ≠ '?') :
    Request.make (chars "form") (chars "GET")
      (JSURL.href ⟨chars "http", chars "//example.com/dir/page", '?' :: data, []⟩)
      none none exDocLoc =
    .ok ⟨chars "form", chars "GET",
      chars "http://example.com/dir/page" ++ '?' :: data, none, none⟩ := by
  have hA : chars "http" ++ ':' :: chars "//example.com/dir/page" =
      chars "http://example.com/dir/page" := by decide
  have hhref : JSURL.href
      ⟨chars "http", chars "//example.com/dir/page", '?' :: data, []⟩ =
      chars "http://example.com/dir/page" ++ '?' :: data := by
    unfold JSURL.href
    dsimp only
    rw [List.append_nil, hA]
  unfold Request.make getAbsoluteUrl urlParseThrows
  dsimp only
  rw [hhref, parseURL_concrete_query data hS]
  dsimp only
  rw [if_neg (show ¬(hostParseFails
    ((authorityOf (chars "//example.com/dir/page")).drop 2) = true) from by decide)]
  rw [if_pos (show jsProtoRegexTest (chars "http" ++ [':']) = true from by decide)]
  rw [if_pos (rfl : true = true)]
  dsimp only
  rw [hhref]

/-- C8: form serialization.  (1) The data loop keeps exactly the named fields,
excluding button/submit inputs, with checkbox/radio contributing only when
checked; on success (2) an absent `method` attribute yields method GET;
(3) a method normalizing to something other than GET yields a POST request
carrying the data string as its body; and with the `action` attribute absent,
against the concrete document location `http://example.com/dir/page?q=1`,
(4) a GET form's serialized data is folded into the target URL's query string
with the target being the document location, and (5) a non-GET form posts to
the document location itself. -/
theorem c8_getFormAsRequest_shape (methodAttr actionAttr : Option Str)
    (fields : List FormField) :
    formDataList fields = (fields.filter contributesField).map fieldPar ∧
    (∀ r : Request,
      getFormAsRequest exDocLoc ⟨methodAttr, actionAttr, fields⟩ = .ok r →
      methodAttr = none → r.method = chars "GET") ∧
    (∀ r : Request,
      getFormAsRequest exDocLoc ⟨methodAttr, actionAttr, fields⟩ = .ok r →
      (if methodAttr.getD [] = [] then chars "GET"
        else (methodAttr.getD []).map asciiUpperChar) ≠ chars "GET" →
      r.method = chars "POST" ∧
      r.data = (if specFormData fields = [] then none
        else some (specFormData fields))) ∧
    (actionAttr = none →
      (if methodAttr.getD [] = [] then chars "GET"
        else (methodAttr.getD []).map asciiUpperChar) = chars "GET" →
      getFormAsRequest exDocLoc ⟨methodAttr, actionAttr, fields⟩ =
        .ok ⟨chars "form", chars "GET",
          chars "http://example.com/dir/page" ++
            (if specFormData fields = [] then []
             else '?' :: specFormData fields),
          none, none⟩) ∧
    (actionAttr = none →
      (if methodAttr.getD [] = [] then chars "GET"
        else (methodAttr.getD []).map asciiUpperChar) ≠ chars "GET" →
      getFormAsRequest exDocLoc ⟨methodAttr, actionAttr, fields⟩ =
        .ok ⟨chars "form", chars "POST", chars "http://example.com/dir/page?q=1",
          (if specFormData fields = [] then none
           else some (specFormData fields)), none⟩) := by
  have hjoin : joinAmp (formDataList fields) = specFormData fields := by
    rw [formDataList_eq_filter]
    rfl
  refine ⟨formDataList_eq_filter fields, ?_, ?_, ?_, ?_⟩
  · intro r hr hm
    subst hm
    unfold getFormAsRequest at hr
    dsimp only at hr
    simp only [Option.getD_none, if_true] at hr
    split at hr
    · exact (requestMake_ok_fields hr).2.1
    · exact absurd hr (by simp)
  · intro r hr hne
    unfold getFormAsRequest at hr
    dsimp only at hr
    rw [if_neg hne] at hr
    obtain ⟨-, hmeth, -, -, hdata⟩ := requestMake_ok_fields hr
    refine ⟨hmeth, ?_⟩
    rw [hdata _ rfl, hjoin]
  · intro ha hg
    subst ha
    unfold getFormAsRequest
    dsimp only
    rw [hg, if_pos (rfl : chars "GET" = chars "GET")]
    rw [show getAbsoluteUrl (JSURL.href exDocLoc) false exDocLoc =
      Except.ok ⟨chars "http", chars "//example.com/dir/page", chars "?q=1", []⟩
      from rfl]
    dsimp only
    unfold searchSet
    dsimp only
    rw [hjoin]
    cases hd : specFormData fields with
    | nil => rfl
    | cons c rest =>
        have hmem : ∀ x ∈ c :: rest, x ≠ '#' ∧ x ≠ '?' := by
          intro x hx
          refine specFormData_safe fields x ?_
          rw [hd]
          exact hx
        have hq : c ≠ '?' := (hmem c (List.mem_cons_self c rest)).2
        rw [if_neg (List.cons_ne_nil c rest)]
        rw [if_neg (show ¬((c :: rest).take 1 = ['?']) from by
          intro hcc
          apply hq
          simpa using hcc)]
        rw [if_neg (List.cons_ne_nil c rest)]
        exact requestMake_query (c :: rest) hmem
  · intro ha hne
    subst ha
    unfold getFormAsRequest
    dsimp only
    rw [if_neg hne]
    unfold Request.make
    rw [show getAbsoluteUrl (JSURL.href exDocLoc) true exDocLoc =
      Except.ok ⟨chars "http", chars "//example.com/dir/page", chars "?q=1", []⟩
      from rfl]
    dsimp only
    rw [hjoin]
    rw [show JSURL.href
      ⟨chars "http", chars "//example.com/dir/page", chars "?q=1", []⟩ =
      chars "http://example.com/dir/page?q=1" from by decide]

/-- C8 witness (Scenario B): `<form method="post" action="/s">` with
`<input name="a" value="1">` serializes to one `form` POST request to
`http://example.com/s` with data `a=1`. -/
theorem c8_witness_scenario_b :
    getFormAsRequest exDocLoc exFormScenarioB =
      .ok ⟨chars "form", chars "POST", chars "http://example.com/s",
           some (chars "a=1"), none⟩ ∧
    (⟨chars "form", chars "POST", chars "http://example.com/s",
      some (chars "a=1"), none⟩ : Request).method = chars "POST" ∧
    (⟨chars "form", chars "POST", chars "http://example.com/s",
      some (chars "a=1"), none⟩ : Request).data =
      (if specFormData exFormScenarioB.fields = [] then none
       else some (specFormData exFormScenarioB.fields)) :=
  ⟨by rfl,
   (c8_getFormAsRequest_shape (some (chars "post")) (some (chars "/s"))
      [⟨chars "INPUT", chars "a", chars "1", chars "text", false⟩]).2.2.1
     ⟨chars "form", chars "POST", chars "http://example.com/s",
      some (chars "a=1"), none⟩ (by rfl) (by decide)⟩
